import Mathlib

/-!
# Verification of the Harmonia incident-response query/aggregation core

Shallow embedding of the filtering/aggregation layer of `utils.py`
(functions `advanced_search_indicators`, `get_severity_distribution`,
`get_filtered_dashboard_stats` and its helpers, `get_temporal_analysis`,
`get_geographic_analysis`, `get_threat_trends_analysis`) together with
proofs of the behavioural claims made by the specification.

Modelling conventions:
* An `Indicator` row mirrors the `indicators` table of `models.py`; every
  column except the integer primary key is a nullable string
  (`Option String`), matching the SQLAlchemy column types.
* SQL string comparison (`>=`, `<=`, `<` on TEXT columns, used for
  severity and date bounds) is byte-wise and is modelled with Lean's
  lexicographic `String` order; a `NULL` column never satisfies a
  comparison, as in SQL three-valued logic.
* `ILIKE '%term%'` is modelled as case-insensitive substring containment
  (the LIKE wildcard characters `%`/`_` inside a user term are not
  modelled; no claim depends on them).
* Python `str.strip()` is modelled by `String.trim`.
* `datetime.now()`-derived cutoff strings are abstracted by a parameter
  `cutoffOf : Int → String` standing for
  `(datetime.now() - timedelta(days=d)).strftime('%Y-%m-%d')`.
* Python `float` arithmetic in the trend analysis is modelled exactly
  over `ℚ` (the factors `1.1` and `0.9` become `11/10` and `9/10`).
* Code that can raise a Python exception is modelled in `Except String`.
-/

/-- A row of the `indicators` table (`models.py`): integer primary key,
every other relevant column a nullable string. -/
structure Indicator where
  id : Nat
  indicator_type : Option String := none
  indicator_value : Option String := none
  name : Option String := none
  description : Option String := none
  source : Option String := none
  severity_score : Option String := none
  date_added : Option String := none
  timestamp : Option String := none
deriving DecidableEq

/-- `needle` occurs at the start of `hay` (on character lists). -/
def startsWithB : List Char → List Char → Bool
  | [], _ => true
  | _ :: _, [] => false
  | a :: as, b :: bs => a == b && startsWithB as bs

/-- `needle` occurs somewhere inside `hay` (on character lists),
i.e. Python's `needle in hay`. -/
def hasSub (needle : List Char) : List Char → Bool
  | [] => needle.isEmpty
  | b :: bs => startsWithB needle (b :: bs) || hasSub needle bs

/-- ASCII lower-casing, structurally on the character list (the library
`String.toLower` is position-based and is avoided so that terms evaluate
by kernel reduction). -/
def lowerStr (s : String) : String :=
  String.mk (s.toList.map Char.toLower)

/-- Python `str.strip()`: drop leading and trailing whitespace. -/
def stripStr (s : String) : String :=
  String.mk (((s.toList.dropWhile Char.isWhitespace).reverse.dropWhile
    Char.isWhitespace).reverse)

/-- `s.strip()` is empty, i.e. the Python truthiness test
`not s.strip()`. -/
def strBlank (s : String) : Bool :=
  stripStr s == ""

/-- Lexicographic strict order on the code points: SQLite byte-wise TEXT
comparison (UTF-8 preserves code-point order). -/
def strLt (s t : String) : Bool :=
  decide (s.toList < t.toList)

/-- `s <= t` as the negation of `t < s` (the order is total). -/
def strLe (s t : String) : Bool :=
  !(strLt t s)

/-- Case-insensitive substring containment: the semantics of
`column ILIKE '%term%'` for a wildcard-free term. -/
def containsSub (hay needle : String) : Bool :=
  hasSub (lowerStr needle).toList (lowerStr hay).toList

/-- `column ILIKE '%term%'` on a nullable column: `NULL` never matches. -/
def likeContains (col : Option String) (term : String) : Bool :=
  match col with
  | none => false
  | some s => containsSub s term

/-- `column >= bound` on a nullable TEXT column (SQLite byte-wise string
comparison); `NULL` never matches. -/
def optStrGe (col : Option String) (b : String) : Bool :=
  match col with
  | none => false
  | some s => strLe b s

/-- `column <= bound` on a nullable TEXT column; `NULL` never matches. -/
def optStrLe (col : Option String) (b : String) : Bool :=
  match col with
  | none => false
  | some s => strLe s b

/-- `column < bound` on a nullable TEXT column; `NULL` never matches. -/
def optStrLt (col : Option String) (b : String) : Bool :=
  match col with
  | none => false
  | some s => strLt s b

/-! ## advanced_search_indicators (utils.py lines 19-116) -/

/-- The optional parameters of `advanced_search_indicators`.  The two
severity bounds are stored after Python's `str()` conversion, which the
source applies before use (`str(severity_min)`). -/
structure SearchParams where
  search_term : Option String := none
  indicator_type : Option String := none
  severity_min : Option String := none
  severity_max : Option String := none
  date_from : Option String := none
  date_to : Option String := none
  source : Option String := none
  page : Nat := 1
  per_page : Nat := 20
  sort_by : String := "id"
  sort_order : String := "desc"
deriving DecidableEq

/-- utils.py:38-45 — `search_term` matches if any of name, description,
indicator_value, source contains the stripped term (OR), skipped when the
term is unset or whitespace-only. -/
def searchTermFilter (o : Option String) (i : Indicator) : Bool :=
  match o with
  | none => true
  | some t =>
    if strBlank t then true
    else
      likeContains i.name (stripStr t) || likeContains i.description (stripStr t) ||
      likeContains i.indicator_value (stripStr t) || likeContains i.source (stripStr t)

/-- utils.py:48-49 — exact type match, skipped for unset, blank, or the
literal `all` (case-insensitive, tested on the unstripped value). -/
def typeFilter (o : Option String) (i : Indicator) : Bool :=
  match o with
  | none => true
  | some ty =>
    if strBlank ty || lowerStr ty == "all" then true
    else i.indicator_type == some (stripStr ty)

/-- utils.py:54-58 — `severity_score >= str(severity_min)`, applied only
when the bound is set and not whitespace-only; the comparison uses the
unstripped string, lexicographically (TEXT column). -/
def sevMinFilter (o : Option String) (i : Indicator) : Bool :=
  match o with
  | none => true
  | some m => if strBlank m then true else optStrGe i.severity_score m

/-- utils.py:59-63 — `severity_score <= str(severity_max)`, same regime. -/
def sevMaxFilter (o : Option String) (i : Indicator) : Bool :=
  match o with
  | none => true
  | some m => if strBlank m then true else optStrLe i.severity_score m

/-- utils.py:68-69 — `date_added >= date_from.strip()`, skipped for unset
or blank values. -/
def dateFromFilter (o : Option String) (i : Indicator) : Bool :=
  match o with
  | none => true
  | some d => if strBlank d then true else optStrGe i.date_added (stripStr d)

/-- utils.py:70-71 — `date_added <= date_to.strip()`. -/
def dateToFilter (o : Option String) (i : Indicator) : Bool :=
  match o with
  | none => true
  | some d => if strBlank d then true else optStrLe i.date_added (stripStr d)

/-- utils.py:74-75 — `source ILIKE '%source.strip()%'`. -/
def sourceFilter (o : Option String) (i : Indicator) : Bool :=
  match o with
  | none => true
  | some s => if strBlank s then true else likeContains i.source (stripStr s)

/-- The conjunction of all filters of `advanced_search_indicators`
(utils.py:35-75). -/
def matchesParams (p : SearchParams) (i : Indicator) : Bool :=
  searchTermFilter p.search_term i && typeFilter p.indicator_type i &&
  sevMinFilter p.severity_min i && sevMaxFilter p.severity_max i &&
  dateFromFilter p.date_from i && dateToFilter p.date_to i &&
  sourceFilter p.source i

/-- A sort key: the integer primary key or a nullable string column.
SQLite orders `NULL` before any string. -/
inductive SortKey where
  | knat (n : Nat)
  | kopt (s : Option String)
deriving DecidableEq

/-- Strict order on sort keys (NULL first, strings byte-wise). -/
def SortKey.klt : SortKey → SortKey → Bool
  | .knat a, .knat b => a < b
  | .kopt a, .kopt b =>
    match a, b with
    | none, none => false
    | none, some _ => true
    | some _, none => false
    | some x, some y => strLt x y
  | .knat _, .kopt _ => true
  | .kopt _, .knat _ => false

/-- utils.py:78 — `getattr(Indicator, sort_by, Indicator.id)`: a
recognised column name selects that column, anything else falls back to
the primary key.  (Resolution of non-column class attributes such as
`Indicator.metadata` is not modelled; see the C3 analysis.) -/
def sortKeyOf (sort_by : String) (i : Indicator) : SortKey :=
  if sort_by == "id" then .knat i.id
  else if sort_by == "indicator_type" then .kopt i.indicator_type
  else if sort_by == "indicator_value" then .kopt i.indicator_value
  else if sort_by == "name" then .kopt i.name
  else if sort_by == "description" then .kopt i.description
  else if sort_by == "source" then .kopt i.source
  else if sort_by == "severity_score" then .kopt i.severity_score
  else if sort_by == "date_added" then .kopt i.date_added
  else if sort_by == "timestamp" then .kopt i.timestamp
  else .knat i.id

/-- Stable insertion step: `x` is placed after every leading element `y`
with `keep y x = true` ("y must stay before x"). -/
def insertS (keep : α → α → Bool) (x : α) : List α → List α
  | [] => [x]
  | y :: ys => if keep y x then y :: insertS keep x ys else x :: y :: ys

/-- Stable sort (ties keep their input order), modelling both SQL
`ORDER BY` with deterministic tie-breaking and Python's stable `sorted`. -/
def sortS (keep : α → α → Bool) : List α → List α
  | [] => []
  | x :: xs => insertS keep x (sortS keep xs)

/-- utils.py:79-82 — the ORDER BY direction: descending when
`sort_order.lower() == 'desc'`, ascending otherwise. -/
def keepBefore (p : SearchParams) (a b : Indicator) : Bool :=
  if lowerStr p.sort_order == "desc" then
    SortKey.klt (sortKeyOf p.sort_by b) (sortKeyOf p.sort_by a)
  else
    SortKey.klt (sortKeyOf p.sort_by a) (sortKeyOf p.sort_by b)

/-- The value returned by `advanced_search_indicators`
(utils.py:106-116).  `items` keeps whole rows; the per-item dict
projection does not matter to any claim. -/
structure SearchResult where
  items : List Indicator
  total : Nat
  pages : Nat
  current_page : Nat
  per_page : Nat
  has_prev : Bool
  has_next : Bool
  prev_num : Option Nat
  next_num : Option Nat
deriving DecidableEq

/-- The literal keys of the dict built at utils.py:106-116. -/
def searchResultKeys : List String :=
  ["items", "total", "pages", "current_page", "per_page",
   "has_prev", "has_next", "prev_num", "next_num"]

/-- `advanced_search_indicators` (utils.py:19-116).  Pagination follows
Flask-SQLAlchemy `paginate(..., error_out=False)`: a page below 1 is
clamped to 1, a per_page below 1 becomes 20, `pages` is
`ceil(total / per_page)` (0 when `total` is 0), `has_prev = page > 1`,
`has_next = page < pages`.  The dict reports the raw `page`/`per_page`
arguments back. -/
def advancedSearchIndicators (db : List Indicator) (p : SearchParams) : SearchResult :=
  let matched := db.filter (matchesParams p)
  let sorted := sortS (keepBefore p) matched
  let total := matched.length
  let page := max 1 p.page
  let perPage := if p.per_page < 1 then 20 else p.per_page
  let items := (sorted.drop ((page - 1) * perPage)).take perPage
  let pages := (total + perPage - 1) / perPage
  { items := items
    total := total
    pages := pages
    current_page := p.page
    per_page := p.per_page
    has_prev := decide (1 < page)
    has_next := decide (page < pages)
    prev_num := if 1 < page then some (page - 1) else none
    next_num := if page < pages then some (page + 1) else none }

/-! ## Severity / source distributions (utils.py:118-136, 414-485) -/

/-- A Python value as it may reach the `str(score) if score else
'Unknown'` expression: a string or an integer (enough to express the
truthiness semantics the claims are about). -/
inductive PyVal where
  | pstr (s : String)
  | pint (n : Int)
deriving DecidableEq

/-- Python truthiness of a `PyVal`: the empty string and `0` are falsy. -/
def PyVal.truthy : PyVal → Bool
  | .pstr s => !s.isEmpty
  | .pint n => n != 0

/-- Python `str()` of a `PyVal`. -/
def PyVal.toStr : PyVal → String
  | .pstr s => s
  | .pint n => toString n

/-- Truthiness of an optional value (`None` is falsy). -/
def optTruthy : Option PyVal → Bool
  | none => false
  | some v => v.truthy

/-- The row conversion `str(score) if score else 'Unknown'`
(utils.py:126, 136, 412, 444, 485, 532). -/
def severityLabel : Option PyVal → String
  | none => "Unknown"
  | some v => if v.truthy then v.toStr else "Unknown"

/-- The same labelling applied to a nullable TEXT column value. -/
def strLabel (o : Option String) : String :=
  severityLabel (o.map PyVal.pstr)

/-- SQL `GROUP BY key` with `count(id)`: one `(key, count)` pair per
distinct key.  The output order of a GROUP BY without a matching ORDER BY
is unspecified; the embedding fixes the order of `List.dedup`, and no
claim depends on the order of the groups. -/
def groupCount [DecidableEq α] (l : List α) : List (α × Nat) :=
  l.dedup.map (fun a => (a, l.count a))

/-- Sum of the counts of a distribution. -/
def sumCounts (l : List (String × Nat)) : Nat :=
  (l.map (fun r => r.2)).sum

/-- `get_severity_distribution` (utils.py:118-126) over the group values
it receives; generalised to `PyVal` group keys so that the truthiness
semantics of the labelling line is expressible. -/
def severityDistributionOf (sevs : List (Option PyVal)) : List (String × Nat) :=
  (groupCount sevs).map (fun g => (severityLabel g.1, g.2))

/-- `get_severity_distribution` applied to a table (the stored column
values are strings or NULL). -/
def getSeverityDistribution (db : List Indicator) : List (String × Nat) :=
  severityDistributionOf (db.map (fun i => i.severity_score.map PyVal.pstr))

/-! ## Filtered dashboard statistics (utils.py:285-532) -/

/-- The Python value passed as `time_range`/`days`: the string `'all'`,
an `int`, or some other string. -/
inductive TimeVal where
  | tall
  | tint (n : Int)
  | tstr (s : String)
deriving DecidableEq

/-- Python `int(s)` on a string: optional sign and decimal digits after
stripping whitespace (`None` when the call would raise `ValueError`;
exotic literal forms such as underscores are not modelled — no claim
depends on them). -/
def digitsToNat (l : List Char) : Nat :=
  l.foldl (fun acc c => acc * 10 + (c.toNat - 48)) 0

def parseIntStr (s : String) : Option Int :=
  let t := (stripStr s).toList
  let neg := t.headD ' ' == '-'
  let core := if t.headD ' ' == '-' || t.headD ' ' == '+' then t.drop 1 else t
  if core.isEmpty || !(core.all Char.isDigit) then none
  else some (if neg then -(digitsToNat core : Int) else (digitsToNat core : Int))

/-- The time filter of `get_filtered_dashboard_stats` (utils.py:300-308)
and `get_geographic_analysis` (utils.py:617-625): `int(time_range)` under
`try/except`, skipping the filter when conversion fails.
`cutoffOf d` stands for
`(datetime.now() - timedelta(days=d)).strftime('%Y-%m-%d')`. -/
def timeFilterGuarded (cutoffOf : Int → String) (tr : TimeVal) (i : Indicator) : Bool :=
  match tr with
  | .tall => true
  | .tint n => optStrGe i.date_added (cutoffOf n)
  | .tstr s =>
    match parseIntStr s with
    | some n => optStrGe i.date_added (cutoffOf n)
    | none => true

/-- The severity band filter (utils.py:311-317 and clones):
`high` is `severity_score >= 8`, `medium` is `4 <= severity_score < 8`,
`low` is `severity_score < 4`; any other value applies no filter.  The
TEXT column makes these lexicographic string comparisons against `'8'`
and `'4'` (SQLite applies the column's TEXT affinity to the literal). -/
def sevBandFilter (sevf : String) (i : Indicator) : Bool :=
  if sevf == "all" then true
  else if sevf == "high" then optStrGe i.severity_score "8"
  else if sevf == "medium" then optStrGe i.severity_score "4" && optStrLt i.severity_score "8"
  else if sevf == "low" then optStrLt i.severity_score "4"
  else true

/-- The source filter (utils.py:320-330 and clones): each recognised
source name contributes an `indicator_type` equality to an OR; when none
of the three names is present the filter is not applied at all. -/
def srcFilter (sources : List String) (i : Indicator) : Bool :=
  let fs : List String :=
    (if sources.contains "MITRE ATT&CK" then ["MITRE Technique"] else []) ++
    (if sources.contains "CISA KEV" then ["CVE Vulnerability"] else []) ++
    (if sources.contains "Abuse.ch URLhaus" then ["Malicious URL"] else [])
  if fs.isEmpty then true else fs.any (fun t => i.indicator_type == some t)

/-- The module-level default for the `sources` argument. -/
def defaultSources : List String :=
  ["MITRE ATT&CK", "CISA KEV", "Abuse.ch URLhaus"]

/-- `get_filtered_severity_distribution` (utils.py:414-444).  Its time
filter (lines 422-424) has NO `try/except`: for a `days` value that is a
string other than `'all'`, `timedelta(days=days)` raises `TypeError`.
Note that — unlike `get_filtered_source_distribution` — this helper never
applies the severity filter. -/
def getFilteredSeverityDistribution (cutoffOf : Int → String) (days : TimeVal)
    (_sevf : String) (sources : List String) (db : List Indicator) :
    Except String (List (String × Nat)) :=
  match days with
  | .tstr _ => .error "TypeError: unsupported type for timedelta days component: str"
  | .tall =>
    let rows := db.filter (fun i => srcFilter sources i)
    .ok ((groupCount (rows.map (fun i => i.severity_score))).map
      (fun g => (strLabel g.1, g.2)))
  | .tint n =>
    let rows := db.filter (fun i =>
      optStrGe i.date_added (cutoffOf n) && srcFilter sources i)
    .ok ((groupCount (rows.map (fun i => i.severity_score))).map
      (fun g => (strLabel g.1, g.2)))

/-- `get_filtered_source_distribution` (utils.py:446-485): time filter
(again without `try/except`), severity filter AND source filter, grouped
by `source`. -/
def getFilteredSourceDistribution (cutoffOf : Int → String) (days : TimeVal)
    (sevf : String) (sources : List String) (db : List Indicator) :
    Except String (List (String × Nat)) :=
  match days with
  | .tstr _ => .error "TypeError: unsupported type for timedelta days component: str"
  | .tall =>
    let rows := db.filter (fun i => sevBandFilter sevf i && srcFilter sources i)
    .ok ((groupCount (rows.map (fun i => i.source))).map
      (fun g => (strLabel g.1, g.2)))
  | .tint n =>
    let rows := db.filter (fun i =>
      optStrGe i.date_added (cutoffOf n) && sevBandFilter sevf i && srcFilter sources i)
    .ok ((groupCount (rows.map (fun i => i.source))).map
      (fun g => (strLabel g.1, g.2)))

/-- utils.py:364-412 — `get_filtered_recent_indicators`.  Its time filter
DOES have the `try/except` (lines 372-379), so it is total; it groups the
filtered rows by day.  Only its totality matters to the claims, so the
day-grouping reuses `groupCount` (output order unspecified, as for any
GROUP BY). -/
def getFilteredRecentIndicators (cutoffOf : Int → String) (days : TimeVal)
    (sevf : String) (sources : List String) (db : List Indicator) :
    List (String × Nat) :=
  let rows := db.filter (fun i =>
    timeFilterGuarded cutoffOf days i && sevBandFilter sevf i && srcFilter sources i)
  (groupCount (rows.map (fun i => i.date_added))).map (fun g => (strLabel g.1, g.2))

/-- utils.py:487-532 — `get_filtered_top_techniques`: same unguarded time
filter as the distribution helpers (line 495-497: raises `TypeError` for
a string `days`), then groups MITRE-technique rows by name; the top-N
selection is irrelevant to every claim and the whole grouped list is
kept. -/
def getFilteredTopTechniques (cutoffOf : Int → String) (days : TimeVal)
    (sevf : String) (sources : List String) (db : List Indicator) :
    Except String (List (String × Nat)) :=
  match days with
  | .tstr _ => .error "TypeError: unsupported type for timedelta days component: str"
  | .tall =>
    let rows := db.filter (fun i =>
      sevBandFilter sevf i && srcFilter sources i &&
      (i.indicator_type == some "MITRE Technique"))
    .ok ((groupCount (rows.map (fun i => i.name))).map (fun g => (strLabel g.1, g.2)))
  | .tint n =>
    let rows := db.filter (fun i =>
      optStrGe i.date_added (cutoffOf n) && sevBandFilter sevf i && srcFilter sources i &&
      (i.indicator_type == some "MITRE Technique"))
    .ok ((groupCount (rows.map (fun i => i.name))).map (fun g => (strLabel g.1, g.2)))

/-- The dict returned by `get_filtered_dashboard_stats`
(utils.py:347-362). -/
structure FilteredStats where
  total_indicators : Nat
  mitre_count : Nat
  cve_count : Nat
  urlhaus_count : Nat
  recent_count : Nat
  severity_distribution : List (String × Nat)
  source_distribution : List (String × Nat)
  recent_trend : List (String × Nat)
  top_techniques : List (String × Nat)
deriving DecidableEq

/-- `get_filtered_dashboard_stats` (utils.py:285-362).  Its own time
filter is guarded by `try/except` (lines 300-308), but the helpers it
calls for the severity distribution, the top techniques and the source
distribution are not: any string `time_range` other than `'all'` makes
the call raise `TypeError`. -/
def getFilteredDashboardStats (cutoffOf : Int → String) (time_range : TimeVal)
    (sevf : String) (sourcesOpt : Option (List String)) (db : List Indicator) :
    Except String FilteredStats :=
  let sources := sourcesOpt.getD defaultSources
  let base := db.filter (fun i =>
    timeFilterGuarded cutoffOf time_range i && sevBandFilter sevf i && srcFilter sources i)
  let total := base.length
  let mitre := (base.filter (fun i => i.indicator_type == some "MITRE Technique")).length
  let cve := (base.filter (fun i => i.indicator_type == some "CVE Vulnerability")).length
  let urlhaus := (base.filter (fun i => i.indicator_type == some "Malicious URL")).length
  let trend := getFilteredRecentIndicators cutoffOf time_range sevf sources db
  do
    let sevDist ← getFilteredSeverityDistribution cutoffOf time_range sevf sources db
    let topTech ← getFilteredTopTechniques cutoffOf time_range sevf sources db
    let srcDist ← getFilteredSourceDistribution cutoffOf time_range sevf sources db
    .ok { total_indicators := total
          mitre_count := mitre
          cve_count := cve
          urlhaus_count := urlhaus
          recent_count := total
          severity_distribution := sevDist
          source_distribution := srcDist
          recent_trend := trend
          top_techniques := topTech }

/-! ## Temporal analysis (utils.py:534-599) -/

/-- Generic in-place update of an insertion-ordered Python dict modelled
as an association list: overwrite the first binding of the key, append a
new binding otherwise. -/
def assocSet [BEq κ] : List (κ × β) → κ → β → List (κ × β)
  | [], k, v => [(k, v)]
  | (k0, v0) :: rest, k, v =>
    if k0 == k then (k, v) :: rest else (k0, v0) :: assocSet rest k v

/-- Dict read with a default (every read performed by the source is on a
key known to be present). -/
def assocGetD [BEq κ] (d : List (κ × β)) (k : κ) (dflt : β) : β :=
  match d.lookup k with
  | some v => v
  | none => dflt

/-- `s.split(',')` on character lists (structural, so that it kernel
evaluates). -/
def splitOnComma : List Char → List (List Char)
  | [] => [[]]
  | c :: cs =>
    let rest := splitOnComma cs
    if c == ',' then [] :: rest
    else (c :: rest.headD []) :: rest.tail

/-- The source filter of `get_temporal_analysis` (utils.py:551-563):
skipped for `None`/empty/`'all'`; a comma means an OR of ILIKE terms over
the stripped non-empty parts (no filter if all parts are blank); anything
else is a single unstripped ILIKE term. -/
def temporalSourceFilter (source : Option String) (i : Indicator) : Bool :=
  match source with
  | none => true
  | some s =>
    if s == "" || lowerStr s == "all" then true
    else if s.toList.contains ',' then
      let parts := ((splitOnComma s.toList).map (fun t => stripStr (String.mk t))).filter
        (fun t => !(t == ""))
      if parts.isEmpty then true else parts.any (fun t => likeContains i.source t)
    else likeContains i.source s

/-- `str(func.date(date_added))` as a grouping key: the stored ISO day
string, or the Python string `'None'` for a NULL column.  (SQLite
`date()` normalisation of malformed date strings is not modelled; no
claim depends on it.) -/
def dayKey (i : Indicator) : String :=
  match i.date_added with
  | none => "None"
  | some d => d

/-- The per-day dict initialised at utils.py:577-582.  Keys are
`Option String` because `source_name` may be SQL NULL (Python `None`);
the three chart keys and `'total'` are string keys. -/
def initDayRow : List (Option String × Nat) :=
  [(some "MITRE ATT&CK", 0), (some "CISA KEV", 0),
   (some "Abuse.ch URLhaus", 0), (some "total", 0)]

/-- The loop body at utils.py:583-584:
`temporal_data[date_str][source_name] = count` followed by
`temporal_data[date_str]['total'] += count`.  Note that a source literally
named `'total'` first overwrites the accumulated total and is then added
to itself. -/
def updDayRow (row : List (Option String × Nat)) (src : Option String) (c : Nat) :
    List (Option String × Nat) :=
  let row1 := assocSet row src c
  assocSet row1 (some "total") (assocGetD row1 (some "total") 0 + c)

/-- One iteration of the organising loop (utils.py:574-584) over a
grouped `(day, source, count)` row. -/
def tdStep (td : List (String × List (Option String × Nat)))
    (g : (String × Option String) × Nat) :
    List (String × List (Option String × Nat)) :=
  match td.lookup g.1.1 with
  | none => td ++ [(g.1.1, updDayRow initDayRow g.1.2 g.2)]
  | some row => assocSet td g.1.1 (updDayRow row g.1.2 g.2)

/-- The five aligned chart series returned by `get_temporal_analysis`
(utils.py:593-599). -/
structure TemporalData where
  dates : List String
  mitre : List Nat
  cisa : List Nat
  urlhaus : List Nat
  total : List Nat
deriving DecidableEq

/-- `get_temporal_analysis` (utils.py:534-599).  `cutoff` stands for
`(datetime.now() - timedelta(days=days)).strftime('%Y-%m-%d')`; the
grouped `(day, source)` counts are folded into the per-day dicts and read
back over the sorted day keys. -/
def getTemporalAnalysis (cutoff : String) (source : Option String)
    (db : List Indicator) : TemporalData :=
  let rows := (db.filter (fun i =>
    optStrGe i.date_added cutoff && temporalSourceFilter source i)).map
    (fun i => (dayKey i, i.source))
  let groups := groupCount rows
  let td := groups.foldl tdStep []
  let dates := sortS (fun y x : String => strLt y x) (td.map (fun e => e.1))
  { dates := dates
    mitre := dates.map (fun d => assocGetD (assocGetD td d []) (some "MITRE ATT&CK") 0)
    cisa := dates.map (fun d => assocGetD (assocGetD td d []) (some "CISA KEV") 0)
    urlhaus := dates.map (fun d => assocGetD (assocGetD td d []) (some "Abuse.ch URLhaus") 0)
    total := dates.map (fun d => assocGetD (assocGetD td d []) (some "total") 0) }

/-! ## Threat trends analysis (utils.py:771-833) -/

/-- Stable descending sort by a numeric key: Python
`sorted(l, key=..., reverse=True)` (equal keys keep their input order). -/
def sortDescBy (key : α → Nat) (l : List α) : List α :=
  sortS (fun y x => key x < key y) l

/-- utils.py:790-792 — the top-3 `(date, count)` pairs by count. -/
def peakDates (dateCounts : List (String × Nat)) : List (String × Nat) :=
  (sortDescBy (fun p => p.2) dateCounts).take 3

/-- utils.py:797-808 — the trend classification.  The Python float
expressions `sum(...)/7` and the factors `1.1`, `0.9` are modelled
exactly over `ℚ`. -/
def trendDirection (t : List Nat) : String :=
  if 7 ≤ t.length then
    let recentAvg : ℚ := ((t.drop (t.length - 7)).sum : ℚ) / 7
    let earlierAvg : ℚ := ((t.take 7).sum : ℚ) / 7
    if earlierAvg * (11 / 10) < recentAvg then "increasing"
    else if recentAvg < earlierAvg * (9 / 10) then "decreasing"
    else "stable"
  else "stable"

/-- The fields of the `get_threat_trends_analysis` result that the claims
are about (the weekly day-of-week averaging is not modelled). -/
structure TrendsResult where
  peak_dates : List (String × Nat)
  average_daily : ℚ
  trend_direction : String
  temporal_data : TemporalData
deriving DecidableEq

/-- `get_threat_trends_analysis` (utils.py:771-833), including the early
return for an empty series (utils.py:781-788). -/
def getThreatTrendsAnalysis (cutoff : String) (db : List Indicator) : TrendsResult :=
  let td := getTemporalAnalysis cutoff none db
  if td.total.isEmpty then
    { peak_dates := []
      average_daily := 0
      trend_direction := "stable"
      temporal_data := td }
  else
    { peak_dates := peakDates (td.dates.zip td.total)
      average_daily := (td.total.sum : ℚ) / td.total.length
      trend_direction := trendDirection td.total
      temporal_data := td }

/-! ## Geographic analysis (utils.py:601-769) -/

/-- The fixed code→country lookup table (utils.py:653-693), in insertion
order. -/
def countryMapping : List (String × String) :=
  [("us", "United States"), ("uk", "United Kingdom"), ("de", "Germany"),
   ("fr", "France"), ("ca", "Canada"), ("au", "Australia"), ("jp", "Japan"),
   ("cn", "China"), ("ru", "Russia"), ("br", "Brazil"), ("in", "India"),
   ("kr", "South Korea"), ("nl", "Netherlands"), ("se", "Sweden"),
   ("no", "Norway"), ("dk", "Denmark"), ("fi", "Finland"),
   ("ch", "Switzerland"), ("at", "Austria"), ("it", "Italy"),
   ("es", "Spain"), ("pl", "Poland"), ("cz", "Czech Republic"),
   ("hu", "Hungary"), ("ro", "Romania"), ("bg", "Bulgaria"),
   ("hr", "Croatia"), ("si", "Slovenia"), ("sk", "Slovakia"),
   ("ee", "Estonia"), ("lv", "Latvia"), ("lt", "Lithuania"),
   ("pt", "Portugal"), ("gr", "Greece"), ("ie", "Ireland"),
   ("be", "Belgium"), ("lu", "Luxembourg"), ("mt", "Malta"),
   ("cy", "Cyprus")]

/-- utils.py:701-707 — first country whose code occurs in the lowered URL
as `.code` or `/code/`. -/
def detectCountry (url : String) : Option String :=
  countryMapping.findSome? (fun e =>
    if containsSub url ("." ++ e.1) || containsSub url ("/" ++ e.1 ++ "/")
    then some e.2 else none)

/-- A per-country bucket of `geographic_data` (utils.py:711-716). -/
structure GeoRow where
  malicious_urls : Nat
  cve_vulnerabilities : Nat
  mitre_techniques : Nat
  total : Nat
deriving DecidableEq

/-- The all-zero bucket created when a URL-derived country first
appears. -/
def zeroGeoRow : GeoRow :=
  { malicious_urls := 0, cve_vulnerabilities := 0, mitre_techniques := 0, total := 0 }

/-- One iteration of the URL pass (utils.py:698-718): skip falsy or
code-free URLs, otherwise create the bucket if needed and add 1 to its
`malicious_urls` and `total`. -/
def urlStep (gd : List (String × GeoRow)) (i : Indicator) : List (String × GeoRow) :=
  match i.indicator_value with
  | none => gd
  | some v =>
    if v == "" then gd
    else
      match detectCountry (lowerStr v) with
      | none => gd
      | some c =>
        let gd1 := if (gd.lookup c).isSome then gd else gd ++ [(c, zeroGeoRow)]
        match gd1.lookup c with
        | some r =>
          assocSet gd1 c { r with malicious_urls := r.malicious_urls + 1,
                                  total := r.total + 1 }
        | none => gd1

/-- The ten simulated countries with their per-country divisors
(utils.py:726-737); each country uses the same divisor for the CVE and
MITRE allocations. -/
def simulatedDivisors : List (String × Nat) :=
  [("United States", 2), ("China", 4), ("Russia", 6), ("North Korea", 8),
   ("Iran", 10), ("United Kingdom", 12), ("Germany", 15), ("France", 15),
   ("Canada", 20), ("Australia", 20)]

/-- The merge loop (utils.py:740-747): an existing (URL-derived) bucket
receives the allocations additively, a fresh bucket is appended with
`total = cve_alloc + mitre_alloc`. -/
def mergeStep (cveCount mitreCount : Nat) (gd : List (String × GeoRow))
    (nd : String × Nat) : List (String × GeoRow) :=
  let ca := max 1 (cveCount / nd.2)
  let ma := max 1 (mitreCount / nd.2)
  match gd.lookup nd.1 with
  | some r =>
    assocSet gd nd.1 { r with cve_vulnerabilities := r.cve_vulnerabilities + ca,
                              mitre_techniques := r.mitre_techniques + ma,
                              total := r.total + ca + ma }
  | none =>
    gd ++ [(nd.1, { malicious_urls := 0, cve_vulnerabilities := ca,
                    mitre_techniques := ma, total := ca + ma })]

/-- The rows matching the three optional filters of
`get_geographic_analysis` (utils.py:615-647; the time filter is the
guarded one of lines 617-625). -/
def geoFiltered (cutoffOf : Int → String) (tr : TimeVal) (sevf : String)
    (sources : List String) (db : List Indicator) : List Indicator :=
  db.filter (fun i =>
    timeFilterGuarded cutoffOf tr i && sevBandFilter sevf i && srcFilter sources i)

/-- The filtered CVE count (utils.py:723). -/
def geoCveCount (cutoffOf : Int → String) (tr : TimeVal) (sevf : String)
    (sources : List String) (db : List Indicator) : Nat :=
  ((geoFiltered cutoffOf tr sevf sources db).filter
    (fun i => i.indicator_type == some "CVE Vulnerability")).length

/-- The filtered MITRE count (utils.py:722). -/
def geoMitreCount (cutoffOf : Int → String) (tr : TimeVal) (sevf : String)
    (sources : List String) (db : List Indicator) : Nat :=
  ((geoFiltered cutoffOf tr sevf sources db).filter
    (fun i => i.indicator_type == some "MITRE Technique")).length

/-- The merged country dict after both passes (utils.py:695-747). -/
def geoMerged (cutoffOf : Int → String) (tr : TimeVal) (sevf : String)
    (sources : List String) (db : List Indicator) : List (String × GeoRow) :=
  let filtered := geoFiltered cutoffOf tr sevf sources db
  let urlhaus := filtered.filter (fun i => i.indicator_type == some "Malicious URL")
  let gd := urlhaus.foldl urlStep []
  simulatedDivisors.foldl
    (mergeStep (geoCveCount cutoffOf tr sevf sources db)
               (geoMitreCount cutoffOf tr sevf sources db)) gd

/-- The country items sorted descending by total (utils.py:756). -/
def geoItems (cutoffOf : Int → String) (tr : TimeVal) (sevf : String)
    (sources : List String) (db : List Indicator) : List (String × GeoRow) :=
  sortDescBy (fun e => e.2.total) (geoMerged cutoffOf tr sevf sources db)

/-- The chart-format result of `get_geographic_analysis`
(utils.py:763-769). -/
structure GeoResult where
  countries : List String
  malicious_urls : List Nat
  cve_vulnerabilities : List Nat
  mitre_techniques : List Nat
  totals : List Nat
deriving DecidableEq

/-- `get_geographic_analysis` (utils.py:601-769). -/
def getGeographicAnalysis (cutoffOf : Int → String) (tr : TimeVal) (sevf : String)
    (sourcesOpt : Option (List String)) (db : List Indicator) : GeoResult :=
  let sources := sourcesOpt.getD defaultSources
  let items := geoItems cutoffOf tr sevf sources db
  { countries := items.map (fun e => e.1)
    malicious_urls := items.map (fun e => e.2.malicious_urls)
    cve_vulnerabilities := items.map (fun e => e.2.cve_vulnerabilities)
    mitre_techniques := items.map (fun e => e.2.mitre_techniques)
    totals := items.map (fun e => e.2.total) }

/-! ## Generic lemmas about the stable sort -/

theorem length_insertS (keep : α → α → Bool) (x : α) (l : List α) :
    (insertS keep x l).length = l.length + 1 := by
  induction l with
  | nil => rfl
  | cons y ys ih =>
    simp only [insertS]
    split
    · simp [ih]
    · simp

theorem length_sortS (keep : α → α → Bool) (l : List α) :
    (sortS keep l).length = l.length := by
  induction l with
  | nil => rfl
  | cons x xs ih => simp [sortS, length_insertS, ih]

theorem perm_insertS (keep : α → α → Bool) (x : α) (l : List α) :
    (insertS keep x l).Perm (x :: l) := by
  induction l with
  | nil => exact List.Perm.refl _
  | cons y ys ih =>
    simp only [insertS]
    split
    · exact ((ih.cons y).trans (List.Perm.swap x y ys))
    · exact List.Perm.refl _

theorem perm_sortS (keep : α → α → Bool) (l : List α) :
    (sortS keep l).Perm l := by
  induction l with
  | nil => exact List.Perm.refl _
  | cons x xs ih => exact (perm_insertS keep x (sortS keep xs)).trans (ih.cons x)

theorem pairwise_insertS (keep : α → α → Bool) (R : α → α → Prop)
    (h1 : ∀ a b, keep a b = true → R a b)
    (h2 : ∀ a b, keep a b = false → R b a)
    (ht : ∀ a b c, R a b → R b c → R a c)
    (x : α) (l : List α) (hl : l.Pairwise R) :
    (insertS keep x l).Pairwise R := by
  induction l with
  | nil => simp [insertS]
  | cons y ys ih =>
    rcases List.pairwise_cons.1 hl with ⟨hy, hys⟩
    simp only [insertS]
    by_cases hk : keep y x = true
    · simp only [hk, if_true]
      refine List.pairwise_cons.2 ⟨?_, ih hys⟩
      intro z hz
      rcases (List.Perm.mem_iff (perm_insertS keep x ys)).1 hz with hz
      rcases List.mem_cons.1 hz with hz | hz
      · exact hz ▸ h1 y x hk
      · exact hy z hz
    · simp only [eq_false_of_ne_true hk, if_false]
      refine List.pairwise_cons.2 ⟨?_, hl⟩
      intro z hz
      rcases List.mem_cons.1 hz with hz | hz
      · exact hz ▸ h2 y x (eq_false_of_ne_true hk)
      · exact ht x y z (h2 y x (eq_false_of_ne_true hk)) (hy z hz)

theorem pairwise_sortS (keep : α → α → Bool) (R : α → α → Prop)
    (h1 : ∀ a b, keep a b = true → R a b)
    (h2 : ∀ a b, keep a b = false → R b a)
    (ht : ∀ a b c, R a b → R b c → R a c)
    (l : List α) : (sortS keep l).Pairwise R := by
  induction l with
  | nil => simp [sortS]
  | cons x xs ih => exact pairwise_insertS keep R h1 h2 ht x (sortS keep xs) ih

theorem filter_insertS (keep : α → α → Bool) (p : α → Bool)
    (hp : ∀ a b, p a = true → p b = true → keep a b = false)
    (x : α) (l : List α) :
    (insertS keep x l).filter p = (x :: l).filter p := by
  induction l with
  | nil => rfl
  | cons y ys ih =>
    simp only [insertS]
    by_cases hk : keep y x = true
    · simp only [hk, if_true]
      by_cases hx : p x = true
      · have hy : p y = false := by
          by_contra hpy
          have := hp y x (eq_true_of_ne_false hpy) hx
          rw [this] at hk
          exact Bool.false_ne_true hk
        simp [List.filter_cons, hy, hx, ih]
      · have hx0 : p x = false := eq_false_of_ne_true hx
        simp only [List.filter_cons] at ih ⊢
        simp only [hx0] at ih ⊢
        simp only [Bool.false_eq_true, if_false] at ih ⊢
        rw [ih]
    · simp [eq_false_of_ne_true hk]

theorem filter_sortS (keep : α → α → Bool) (p : α → Bool)
    (hp : ∀ a b, p a = true → p b = true → keep a b = false)
    (l : List α) : (sortS keep l).filter p = l.filter p := by
  induction l with
  | nil => rfl
  | cons x xs ih =>
    have h := filter_insertS keep p hp x (sortS keep xs)
    simp only [sortS, h, List.filter_cons]
    split
    · rw [ih]
    · exact ih

/-! ## Helper lemmas for search pagination and filtering -/

theorem filter_length_mono (l : List α) (p q : α → Bool)
    (h : ∀ a, p a = true → q a = true) :
    (l.filter p).length ≤ (l.filter q).length := by
  induction l with
  | nil => exact Nat.le_refl 0
  | cons a as ih =>
    by_cases hp : p a = true
    · simp only [List.filter_cons, hp, h a hp, if_true]
      exact Nat.succ_le_succ ih
    · simp only [List.filter_cons, eq_false_of_ne_true hp, Bool.false_eq_true, if_false]
      by_cases hq : q a = true
      · simp only [hq, if_true, List.length_cons]
        exact Nat.le_trans ih (Nat.le_succ _)
      · simp only [eq_false_of_ne_true hq, Bool.false_eq_true, if_false]
        exact ih

theorem items_length_eq (db : List Indicator) (p : SearchParams) :
    (advancedSearchIndicators db p).items.length =
      min (if p.per_page < 1 then 20 else p.per_page)
        ((db.filter (matchesParams p)).length -
          (max 1 p.page - 1) * (if p.per_page < 1 then 20 else p.per_page)) := by
  simp [advancedSearchIndicators, List.length_take, List.length_drop, length_sortS]

/-- `ceil(t / pp) * pp` dominates `t` (used for the out-of-range-page
argument). -/
theorem le_ceilDiv_mul (t pp : Nat) (hpp : 1 ≤ pp) :
    t ≤ ((t + pp - 1) / pp) * pp := by
  have h1 : pp * ((t + pp - 1) / pp) + (t + pp - 1) % pp = t + pp - 1 :=
    Nat.div_add_mod _ _
  have h2 : (t + pp - 1) % pp < pp := Nat.mod_lt _ (by omega)
  rw [Nat.mul_comm]
  omega

/-! ## Concrete rows used by witnesses and counterexamples -/

/-- A technique row with severity `"7.5"`. -/
def sampleTech : Indicator :=
  { id := 1, indicator_type := some "MITRE Technique",
    name := some "Data Obfuscation", description := some "Hiding data in transit.",
    source := some "MITRE ATT&CK", severity_score := some "7.5",
    date_added := some "2025-06-26" }

/-- A vulnerability row with severity `"8.0"`. -/
def sampleCve : Indicator :=
  { id := 2, indicator_type := some "CVE Vulnerability",
    name := some "Sample Vulnerable Product", description := some "A sample vulnerability.",
    source := some "CISA KEV Catalog", severity_score := some "8.0",
    date_added := some "2025-06-25" }

/-- A technique row with the low severity `"3.0"`. -/
def sampleLow : Indicator :=
  { id := 3, indicator_type := some "MITRE Technique",
    name := some "Process Injection", description := some "Injecting code.",
    source := some "MITRE ATT&CK", severity_score := some "3.0",
    date_added := some "2025-06-24" }

/-! ## Claim C2 — severity bounds that are non-numeric strings -/

theorem matches_sevMin_blank (p : SearchParams) (m : String)
    (hm : strBlank m = true) (i : Indicator) :
    matchesParams { p with severity_min := some m } i =
    matchesParams { p with severity_min := none } i := by
  simp [matchesParams, sevMinFilter, hm]

theorem matches_sevMin_split (p : SearchParams) (m : String)
    (hm : strBlank m = false) (i : Indicator) :
    matchesParams { p with severity_min := some m } i =
    (matchesParams { p with severity_min := none } i && optStrGe i.severity_score m) := by
  simp only [matchesParams, sevMinFilter, hm, Bool.false_eq_true, if_false]
  cases optStrGe i.severity_score m <;> cases searchTermFilter p.search_term i <;>
    cases typeFilter p.indicator_type i <;> simp

theorem matches_sevMax_blank (p : SearchParams) (m : String)
    (hm : strBlank m = true) (i : Indicator) :
    matchesParams { p with severity_max := some m } i =
    matchesParams { p with severity_max := none } i := by
  simp [matchesParams, sevMaxFilter, hm]

theorem matches_sevMax_split (p : SearchParams) (m : String)
    (hm : strBlank m = false) (i : Indicator) :
    matchesParams { p with severity_max := some m } i =
    (matchesParams { p with severity_max := none } i && optStrLe i.severity_score m) := by
  simp only [matchesParams, sevMaxFilter, hm, Bool.false_eq_true, if_false]
  cases optStrLe i.severity_score m <;> cases searchTermFilter p.search_term i <;>
    cases typeFilter p.indicator_type i <;> cases sevMinFilter p.severity_min i <;> simp

theorem advSearch_congr (db db2 : List Indicator) (p p2 : SearchParams)
    (hfil : db.filter (matchesParams p) = db2.filter (matchesParams p2))
    (hsb : p.sort_by = p2.sort_by) (hso : p.sort_order = p2.sort_order)
    (hpage : p.page = p2.page) (hpp : p.per_page = p2.per_page) :
    advancedSearchIndicators db p = advancedSearchIndicators db2 p2 := by
  have hkeep : keepBefore p = keepBefore p2 := by
    unfold keepBefore
    rw [hsb, hso]
  unfold advancedSearchIndicators
  rw [hfil, hkeep, hpage, hpp]

/-- **C2** (corrected).  A non-numeric `severity_min` or `severity_max`
string is NOT treated as unset: unless it strips to the empty string it
is applied as an inclusive lexicographic bound on the stored severity
text (no error is raised; the `try/except` around
`severity_score >= str(...)` / `<= str(...)` never fires because
building the comparison cannot raise).  Whitespace-only bounds are the
ones equivalent to unset. -/
theorem C2_sevBounds_lexicographic (db : List Indicator) (p : SearchParams) (m : String) :
    (strBlank m = true →
      advancedSearchIndicators db { p with severity_min := some m } =
      advancedSearchIndicators db { p with severity_min := none }) ∧
    (strBlank m = false →
      advancedSearchIndicators db { p with severity_min := some m } =
      advancedSearchIndicators (db.filter (fun i => optStrGe i.severity_score m))
        { p with severity_min := none }) ∧
    (strBlank m = true →
      advancedSearchIndicators db { p with severity_max := some m } =
      advancedSearchIndicators db { p with severity_max := none }) ∧
    (strBlank m = false →
      advancedSearchIndicators db { p with severity_max := some m } =
      advancedSearchIndicators (db.filter (fun i => optStrLe i.severity_score m))
        { p with severity_max := none }) := by
  refine ⟨?_, ?_, ?_, ?_⟩
  · intro hm
    apply advSearch_congr
    · exact List.filter_congr (fun i _ => matches_sevMin_blank p m hm i)
    all_goals rfl
  · intro hm
    apply advSearch_congr
    · rw [List.filter_filter]
      exact List.filter_congr (fun i _ => matches_sevMin_split p m hm i)
    all_goals rfl
  · intro hm
    apply advSearch_congr
    · exact List.filter_congr (fun i _ => matches_sevMax_blank p m hm i)
    all_goals rfl
  · intro hm
    apply advSearch_congr
    · rw [List.filter_filter]
      exact List.filter_congr (fun i _ => matches_sevMax_split p m hm i)
    all_goals rfl

/-- **C2** counterexample: with one stored severity `"7.5"`, the
non-numeric bound `severity_min="zzz"` changes the result (total drops
from 1 to 0), and so does the non-numeric bound `severity_max="!"` — so
neither bound is "identical to the same call with that bound unset". -/
theorem C2_counterexample :
    (advancedSearchIndicators [sampleTech] { severity_min := some "zzz" }).total = 0 ∧
    (advancedSearchIndicators [sampleTech] {}).total = 1 ∧
    (advancedSearchIndicators [sampleTech] { severity_min := some "zzz" }).items = [] ∧
    (advancedSearchIndicators [sampleTech] {}).items = [sampleTech] ∧
    (advancedSearchIndicators [sampleTech] { severity_max := some "!" }).total = 0 ∧
    (advancedSearchIndicators [sampleTech] { severity_max := some "!" }).items = [] := by
  refine ⟨rfl, rfl, rfl, rfl, rfl, rfl⟩

/-- Witness for `C2_sevBounds_lexicographic` at the concrete bounds
`"zzz"` (min) and `"!"` (max). -/
theorem C2_witness :
    (advancedSearchIndicators [sampleTech]
      { ({} : SearchParams) with severity_min := some "zzz" } =
    advancedSearchIndicators
      ([sampleTech].filter (fun i => optStrGe i.severity_score "zzz"))
      { ({} : SearchParams) with severity_min := none }) ∧
    (advancedSearchIndicators [sampleTech]
      { ({} : SearchParams) with severity_max := some "!" } =
    advancedSearchIndicators
      ([sampleTech].filter (fun i => optStrLe i.severity_score "!"))
      { ({} : SearchParams) with severity_max := none }) :=
  ⟨(C2_sevBounds_lexicographic [sampleTech] {} "zzz").2.1 (by decide),
   (C2_sevBounds_lexicographic [sampleTech] {} "!").2.2.2 (by decide)⟩

/-! ## Claim C4 — the search result contract -/

/-- **C4** counterexample: the dict built at utils.py:106-116 exposes the
Flask-SQLAlchemy names `prev_num`/`next_num`, not the `prev_page`/
`next_page` keys the claim lists. -/
theorem C4_counterexample :
    searchResultKeys.contains "prev_page" = false ∧
    searchResultKeys.contains "next_page" = false ∧
    searchResultKeys.contains "prev_num" = true ∧
    searchResultKeys.contains "next_num" = true := by
  decide

/-- **C4** (corrected: the last two keys are `prev_num`/`next_num`).
For `per_page ≥ 1`: `total` counts all matching rows before paging,
`pages = ceil(total/per_page)` (so a zero-match search yields
`items=[]`, `total=0`, `pages=0`), and any page beyond `pages` yields an
empty item list rather than an error. -/
theorem C4_pagination_contract (db : List Indicator) (p : SearchParams)
    (hpp : 1 ≤ p.per_page) :
    searchResultKeys = ["items", "total", "pages", "current_page", "per_page",
      "has_prev", "has_next", "prev_num", "next_num"] ∧
    (advancedSearchIndicators db p).total = (db.filter (matchesParams p)).length ∧
    (advancedSearchIndicators db p).pages =
      ((db.filter (matchesParams p)).length + p.per_page - 1) / p.per_page ∧
    ((db.filter (matchesParams p)).length = 0 →
      (advancedSearchIndicators db p).items = [] ∧
      (advancedSearchIndicators db p).pages = 0) ∧
    ((advancedSearchIndicators db p).pages < p.page →
      (advancedSearchIndicators db p).items = []) := by
  have hpp0 : ¬ p.per_page = 0 := by omega
  have hpages : (advancedSearchIndicators db p).pages =
      ((db.filter (matchesParams p)).length + p.per_page - 1) / p.per_page := by
    simp [advancedSearchIndicators, hpp0]
  have hitems : (advancedSearchIndicators db p).items =
      ((sortS (keepBefore p) (db.filter (matchesParams p))).drop
        ((max 1 p.page - 1) * p.per_page)).take p.per_page := by
    simp [advancedSearchIndicators, hpp0]
  refine ⟨rfl, rfl, hpages, ?_, ?_⟩
  · intro h0
    have hm : db.filter (matchesParams p) = [] := List.length_eq_zero.mp h0
    constructor
    · rw [hitems, hm]
      simp [sortS]
    · rw [hpages, h0]
      exact Nat.div_eq_of_lt (by omega)
  · intro hlt
    rw [hpages] at hlt
    rw [hitems]
    have hdrop : (sortS (keepBefore p) (db.filter (matchesParams p))).drop
        ((max 1 p.page - 1) * p.per_page) = [] := by
      apply List.drop_eq_nil_of_le
      rw [length_sortS]
      calc (db.filter (matchesParams p)).length
          ≤ (((db.filter (matchesParams p)).length + p.per_page - 1) / p.per_page)
              * p.per_page := le_ceilDiv_mul _ _ hpp
        _ ≤ (max 1 p.page - 1) * p.per_page :=
            Nat.mul_le_mul_right _ (by omega)
    rw [hdrop, List.take_nil]

/-- Witness for `C4_pagination_contract` on a one-row table with the
default parameters. -/
theorem C4_witness :
    searchResultKeys = ["items", "total", "pages", "current_page", "per_page",
      "has_prev", "has_next", "prev_num", "next_num"] ∧
    (advancedSearchIndicators [sampleTech] {}).total =
      ([sampleTech].filter (matchesParams {})).length ∧
    (advancedSearchIndicators [sampleTech] {}).pages =
      (([sampleTech].filter (matchesParams {})).length +
        ({} : SearchParams).per_page - 1) / ({} : SearchParams).per_page ∧
    (([sampleTech].filter (matchesParams {})).length = 0 →
      (advancedSearchIndicators [sampleTech] {}).items = [] ∧
      (advancedSearchIndicators [sampleTech] {}).pages = 0) ∧
    ((advancedSearchIndicators [sampleTech] {}).pages < ({} : SearchParams).page →
      (advancedSearchIndicators [sampleTech] {}).items = []) :=
  C4_pagination_contract [sampleTech] {} (by decide)

/-! ## Claim C7 — filter monotonicity -/

/-- `o'` is obtained from `o` by possibly setting a previously-unset
option: a set option must be kept as-is. -/
def OptExtends (o' o : Option String) : Prop :=
  o = none ∨ o' = o

/-- `p'` adds constraints to `p`: each of the seven filter options of
`advanced_search_indicators` that is set in `p` is kept in `p'`, and
previously-unset options may be newly set. -/
def ParamExtends (p' p : SearchParams) : Prop :=
  OptExtends p'.search_term p.search_term ∧
  OptExtends p'.indicator_type p.indicator_type ∧
  OptExtends p'.severity_min p.severity_min ∧
  OptExtends p'.severity_max p.severity_max ∧
  OptExtends p'.date_from p.date_from ∧
  OptExtends p'.date_to p.date_to ∧
  OptExtends p'.source p.source

theorem optFilter_mono (fF : Option String → Indicator → Bool)
    (hnone : ∀ i, fF none i = true) {o' o : Option String}
    (h : OptExtends o' o) (i : Indicator) (hi : fF o' i = true) :
    fF o i = true := by
  rcases h with h | h
  · rw [h]
    exact hnone i
  · rw [← h]
    exact hi

theorem matches_mono (p' p : SearchParams) (h : ParamExtends p' p)
    (i : Indicator) (hi : matchesParams p' i = true) :
    matchesParams p i = true := by
  obtain ⟨h1, h2, h3, h4, h5, h6, h7⟩ := h
  simp only [matchesParams, Bool.and_eq_true] at hi ⊢
  obtain ⟨⟨⟨⟨⟨⟨g1, g2⟩, g3⟩, g4⟩, g5⟩, g6⟩, g7⟩ := hi
  exact ⟨⟨⟨⟨⟨⟨optFilter_mono searchTermFilter (fun _ => rfl) h1 i g1,
    optFilter_mono typeFilter (fun _ => rfl) h2 i g2⟩,
    optFilter_mono sevMinFilter (fun _ => rfl) h3 i g3⟩,
    optFilter_mono sevMaxFilter (fun _ => rfl) h4 i g4⟩,
    optFilter_mono dateFromFilter (fun _ => rfl) h5 i g5⟩,
    optFilter_mono dateToFilter (fun _ => rfl) h6 i g6⟩,
    optFilter_mono sourceFilter (fun _ => rfl) h7 i g7⟩

/-- **C7** (confirmed).  Adding constraints (setting previously-unset
filter options) can only shrink the result: at equal `page` and
`per_page`, both `total` and the number of returned items are
antitone. -/
theorem C7_filter_monotonicity (db : List Indicator) (p p' : SearchParams)
    (h : ParamExtends p' p) (hpage : p'.page = p.page)
    (hpp : p'.per_page = p.per_page) :
    (advancedSearchIndicators db p').total ≤ (advancedSearchIndicators db p).total ∧
    (advancedSearchIndicators db p').items.length ≤
      (advancedSearchIndicators db p).items.length := by
  have htot : (db.filter (matchesParams p')).length ≤
      (db.filter (matchesParams p)).length :=
    filter_length_mono db _ _ (matches_mono p' p h)
  refine ⟨htot, ?_⟩
  rw [items_length_eq, items_length_eq, hpage, hpp]
  exact min_le_min (le_refl _) (Nat.sub_le_sub_right htot _)

/-- Witness for `C7_filter_monotonicity`: restricting the empty filter
set by an indicator-type constraint on a two-row table. -/
theorem C7_witness :
    (advancedSearchIndicators [sampleTech, sampleCve]
      { indicator_type := some "MITRE Technique" }).total ≤
    (advancedSearchIndicators [sampleTech, sampleCve] {}).total ∧
    (advancedSearchIndicators [sampleTech, sampleCve]
      { indicator_type := some "MITRE Technique" }).items.length ≤
    (advancedSearchIndicators [sampleTech, sampleCve] {}).items.length :=
  C7_filter_monotonicity [sampleTech, sampleCve] {}
    { indicator_type := some "MITRE Technique" }
    (by refine ⟨?_, ?_, ?_, ?_, ?_, ?_, ?_⟩ <;> exact Or.inl rfl) rfl rfl

/-! ## Claim C9 — the Unknown bucket is decided by truthiness -/

/-- **C9** (confirmed).  In `get_severity_distribution` (and, through the
same row conversion, the filtered variant) each group key is labelled by
Python truthiness: `None`, the empty string and any falsy value (e.g.
numeric 0) go to `"Unknown"`, every truthy value keeps its `str()` form,
and no group is dropped (one output row per group, counts unchanged). -/
theorem C9_unknown_by_truthiness (sevs : List (Option PyVal)) :
    (severityDistributionOf sevs).length = (groupCount sevs).length ∧
    (∀ g ∈ groupCount sevs,
      (severityLabel g.1, g.2) ∈ severityDistributionOf sevs) ∧
    (∀ v : Option PyVal, optTruthy v = false → severityLabel v = "Unknown") ∧
    (∀ x : PyVal, x.truthy = true → severityLabel (some x) = x.toStr) ∧
    (∀ o : Option String, strLabel o = severityLabel (o.map PyVal.pstr)) ∧
    (∀ db : List Indicator, getSeverityDistribution db =
      severityDistributionOf (db.map (fun i => i.severity_score.map PyVal.pstr))) := by
  refine ⟨List.length_map _ _, ?_, ?_, ?_, fun _ => rfl, fun _ => rfl⟩
  · intro g hg
    exact List.mem_map_of_mem (fun g => (severityLabel g.1, g.2)) hg
  · intro v hv
    match v with
    | none => rfl
    | some x =>
      simp only [optTruthy] at hv
      simp [severityLabel, hv]
  · intro x hx
    simp [severityLabel, hx]

/-- Witness for `C9_unknown_by_truthiness`: a falsy integer severity 0 is
reported under `"Unknown"` with its group count kept. -/
theorem C9_witness :
    (severityLabel (some (PyVal.pint 0)), 2) ∈
      severityDistributionOf
        [some (PyVal.pint 0), some (PyVal.pstr "7.5"), none, some (PyVal.pint 0)] ∧
    severityLabel (some (PyVal.pint 0)) = "Unknown" :=
  ⟨(C9_unknown_by_truthiness
      [some (PyVal.pint 0), some (PyVal.pstr "7.5"), none, some (PyVal.pint 0)]).2.1
      (some (PyVal.pint 0), 2) (by decide),
   (C9_unknown_by_truthiness []).2.2.1 (some (PyVal.pint 0)) (by decide)⟩

/-! ## Claim C5 — trend direction -/

/-- **C5** (confirmed; Python float arithmetic modelled exactly over
`ℚ`).  With at least 7 buckets the direction compares the mean of the
last 7 to 1.10/0.90 times the mean of the first 7; with fewer than 7 it
is always `stable`, and every constant series (shorter than 7 or of
length at least 14) is `stable`. -/
theorem C5_trend_direction (t : List Nat) :
    (7 ≤ t.length →
      ((trendDirection t = "increasing" ↔
        ((((t.take 7).sum : ℚ) / 7) * (11 / 10) <
          ((t.drop (t.length - 7)).sum : ℚ) / 7)) ∧
       (trendDirection t = "decreasing" ↔
        (¬ ((((t.take 7).sum : ℚ) / 7) * (11 / 10) <
          ((t.drop (t.length - 7)).sum : ℚ) / 7) ∧
         ((t.drop (t.length - 7)).sum : ℚ) / 7 <
           (((t.take 7).sum : ℚ) / 7) * (9 / 10))) ∧
       (trendDirection t = "stable" ↔
        (¬ ((((t.take 7).sum : ℚ) / 7) * (11 / 10) <
          ((t.drop (t.length - 7)).sum : ℚ) / 7) ∧
         ¬ (((t.drop (t.length - 7)).sum : ℚ) / 7 <
           (((t.take 7).sum : ℚ) / 7) * (9 / 10)))))) ∧
    (t.length < 7 → trendDirection t = "stable") ∧
    (∀ (c n : Nat), 14 ≤ n → trendDirection (List.replicate n c) = "stable") := by
  refine ⟨?_, ?_, ?_⟩
  · intro h7
    unfold trendDirection
    rw [if_pos h7]
    constructor
    · constructor
      · intro he
        by_contra hc
        rw [if_neg hc] at he
        split at he <;> simp_all
      · intro hc
        rw [if_pos hc]
    · constructor
      · constructor
        · intro he
          by_cases hc1 : (((t.take 7).sum : ℚ) / 7) * (11 / 10) <
              ((t.drop (t.length - 7)).sum : ℚ) / 7
          · rw [if_pos hc1] at he
            simp_all
          · rw [if_neg hc1] at he
            refine ⟨hc1, ?_⟩
            by_contra hc2
            rw [if_neg hc2] at he
            simp_all
        · intro ⟨hc1, hc2⟩
          rw [if_neg hc1, if_pos hc2]
      · constructor
        · intro he
          by_cases hc1 : (((t.take 7).sum : ℚ) / 7) * (11 / 10) <
              ((t.drop (t.length - 7)).sum : ℚ) / 7
          · rw [if_pos hc1] at he
            simp_all
          · rw [if_neg hc1] at he
            by_cases hc2 : ((t.drop (t.length - 7)).sum : ℚ) / 7 <
                (((t.take 7).sum : ℚ) / 7) * (9 / 10)
            · rw [if_pos hc2] at he
              simp_all
            · exact ⟨hc1, hc2⟩
        · intro ⟨hc1, hc2⟩
          rw [if_neg hc1, if_neg hc2]
  · intro hlt
    unfold trendDirection
    rw [if_neg (by omega)]
  · intro c n hn
    unfold trendDirection
    rw [if_pos (by simp [List.length_replicate]; omega)]
    have h1 : (List.replicate n c).take 7 = List.replicate 7 c := by
      rw [List.take_replicate]
      congr 1
      omega
    have h2 : (List.replicate n c).drop ((List.replicate n c).length - 7) =
        List.replicate 7 c := by
      rw [List.length_replicate, List.drop_replicate]
      congr 1
      omega
    rw [h1, h2]
    have hs0 : (List.replicate 7 c).sum = 7 * c := by
      simp [List.sum_replicate, Nat.mul_comm]
      omega
    have hs : ((List.replicate 7 c).sum : ℚ) = 7 * (c : ℚ) := by
      rw [hs0]
      push_cast
      ring
    rw [hs]
    have hc0 : (0 : ℚ) ≤ (c : ℚ) := Nat.cast_nonneg c
    rw [if_neg (by nlinarith), if_neg (by nlinarith)]

/-- Witness for `C5_trend_direction`: a 14-day constant series and a
short series are both `stable`. -/
theorem C5_witness :
    trendDirection (List.replicate 14 5) = "stable" ∧
    trendDirection [1, 2, 3] = "stable" :=
  ⟨(C5_trend_direction []).2.2 5 14 (by decide),
   (C5_trend_direction [1, 2, 3]).2.1 (by decide)⟩

/-! ## Claim C6 — peak detection -/

/-- **C6** (confirmed).  `peak_dates` is the 3-prefix of the stable
descending-by-count sort of the chronologically ordered day series: the
sorted list is a permutation of the input, its counts are
non-increasing, ties keep the input (chronological) order, and with at
most 3 days every day is returned. -/
theorem C6_peak_detection (l : List (String × Nat)) :
    peakDates l = (sortDescBy (fun p => p.2) l).take 3 ∧
    (sortDescBy (fun p => p.2) l).Perm l ∧
    (sortDescBy (fun p => p.2) l).Pairwise (fun a b => b.2 ≤ a.2) ∧
    (∀ c : Nat, (sortDescBy (fun p => p.2) l).filter (fun a => a.2 == c) =
      l.filter (fun a => a.2 == c)) ∧
    (l.length ≤ 3 → peakDates l = sortDescBy (fun p => p.2) l ∧
      (peakDates l).length = l.length) ∧
    (∀ (cutoff : String) (db : List Indicator),
      (getThreatTrendsAnalysis cutoff db).peak_dates =
        peakDates ((getTemporalAnalysis cutoff none db).dates.zip
          (getTemporalAnalysis cutoff none db).total)) := by
  have hperm : (sortDescBy (fun p : String × Nat => p.2) l).Perm l :=
    perm_sortS _ l
  have hlen : (sortDescBy (fun p : String × Nat => p.2) l).length = l.length :=
    length_sortS _ l
  refine ⟨rfl, hperm, ?_, ?_, ?_, ?_⟩
  · apply pairwise_sortS
    · intro a b hk
      have : b.2 < a.2 := of_decide_eq_true hk
      omega
    · intro a b hk
      have : ¬ (b.2 < a.2) := of_decide_eq_false hk
      omega
    · intro a b c h1 h2
      omega
  · intro c
    apply filter_sortS
    intro a b ha hb
    have ha2 : a.2 = c := by simpa using ha
    have hb2 : b.2 = c := by simpa using hb
    simp [ha2, hb2]
  · intro h3
    have : (sortDescBy (fun p : String × Nat => p.2) l).length ≤ 3 := by omega
    constructor
    · exact List.take_of_length_le this
    · rw [peakDates, List.length_take, hlen]
      omega
  · intro cutoff db
    unfold getThreatTrendsAnalysis
    dsimp only
    split
    · rename_i hemp
      have ht : (getTemporalAnalysis cutoff none db).total = [] :=
        List.isEmpty_iff.mp hemp
      rw [ht, List.zip_nil_right]
      rfl
    · rfl

/-- Witness for `C6_peak_detection` on a two-day series. -/
theorem C6_witness :
    peakDates [("2025-01-01", 1), ("2025-01-02", 5)] =
      sortDescBy (fun p => p.2) [("2025-01-01", 1), ("2025-01-02", 5)] ∧
    (peakDates [("2025-01-01", 1), ("2025-01-02", 5)]).length = 2 :=
  (C6_peak_detection [("2025-01-01", 1), ("2025-01-02", 5)]).2.2.2.2.1 (by decide)

/-! ## Claim C1 — distribution total law -/

theorem sumCounts_label_groupCount {α : Type} [DecidableEq α]
    (f : α → String) (l : List α) :
    sumCounts ((groupCount l).map (fun g => (f g.1, g.2))) = l.length := by
  unfold sumCounts groupCount
  rw [List.map_map, List.map_map]
  exact List.sum_map_count_dedup_eq_length l

/-- **C1** (corrected).  `get_filtered_severity_distribution` never
applies the severity filter, so for every non-raising `time_range`
(`'all'` or an int): the source-distribution counts always sum to
`total_indicators`, while the severity-distribution counts sum to the
number of rows matching only the time and source filters; the three
quantities coincide whenever `severity_filter = 'all'`. -/
theorem C1_distribution_totals (cutoffOf : Int → String) (tr : TimeVal)
    (sevf : String) (sourcesOpt : Option (List String)) (db : List Indicator)
    (htr : tr = TimeVal.tall ∨ ∃ n : Int, tr = TimeVal.tint n) :
    ∃ stats, getFilteredDashboardStats cutoffOf tr sevf sourcesOpt db = .ok stats ∧
      sumCounts stats.source_distribution = stats.total_indicators ∧
      sumCounts stats.severity_distribution =
        (db.filter (fun i => timeFilterGuarded cutoffOf tr i &&
          srcFilter (sourcesOpt.getD defaultSources) i)).length ∧
      (sevf = "all" →
        sumCounts stats.severity_distribution = stats.total_indicators) := by
  rcases htr with htr | ⟨n, htr⟩ <;> subst htr
  · refine ⟨_, rfl, ?_, ?_, ?_⟩
    · rw [sumCounts_label_groupCount, List.length_map]
      exact congrArg List.length
        (List.filter_congr (fun i _ => by simp [timeFilterGuarded]))
    · rw [sumCounts_label_groupCount, List.length_map]
      exact congrArg List.length
        (List.filter_congr (fun i _ => by simp [timeFilterGuarded]))
    · intro hall
      subst hall
      rw [sumCounts_label_groupCount, List.length_map]
      exact congrArg List.length
        (List.filter_congr (fun i _ => by simp [timeFilterGuarded, sevBandFilter]))
  · refine ⟨_, rfl, ?_, ?_, ?_⟩
    · rw [sumCounts_label_groupCount, List.length_map]
      exact congrArg List.length
        (List.filter_congr (fun i _ => by simp [timeFilterGuarded]))
    · rw [sumCounts_label_groupCount, List.length_map]
      exact congrArg List.length
        (List.filter_congr (fun i _ => by simp [timeFilterGuarded]))
    · intro hall
      subst hall
      rw [sumCounts_label_groupCount, List.length_map]
      exact congrArg List.length
        (List.filter_congr (fun i _ => by simp [timeFilterGuarded, sevBandFilter]))

/-- **C1** counterexample: one indicator with severity `"3.0"` under
`severity_filter='high'` — the severity-distribution counts sum to 1
while `total_indicators` and the source-distribution sum are 0, so the
three quantities are not all equal. -/
theorem C1_counterexample :
    ∃ stats, getFilteredDashboardStats (fun _ => "") TimeVal.tall "high" none
      [sampleLow] = .ok stats ∧
      sumCounts stats.severity_distribution = 1 ∧
      stats.total_indicators = 0 ∧
      sumCounts stats.source_distribution = 0 :=
  ⟨_, rfl, rfl, rfl, rfl⟩

/-- Witness for `C1_distribution_totals` with `time_range='all'`,
`severity_filter='all'` on a two-row table. -/
theorem C1_witness :
    ∃ stats, getFilteredDashboardStats (fun _ => "") TimeVal.tall "all" none
      [sampleTech, sampleCve] = .ok stats ∧
      sumCounts stats.source_distribution = stats.total_indicators ∧
      sumCounts stats.severity_distribution =
        ([sampleTech, sampleCve].filter (fun i =>
          timeFilterGuarded (fun _ => "") TimeVal.tall i &&
          srcFilter ((none : Option (List String)).getD defaultSources) i)).length ∧
      ("all" = "all" →
        sumCounts stats.severity_distribution = stats.total_indicators) :=
  C1_distribution_totals (fun _ => "") TimeVal.tall "all" none
    [sampleTech, sampleCve] (Or.inl rfl)

/-! ## Claim C3 — non-numeric time_range raises inside the helpers -/

/-- **C3** (code bug).  `get_filtered_dashboard_stats` guards its own
time filter with `try/except` (utils.py:300-308, "skip time filtering"),
but the helpers it calls (`get_filtered_severity_distribution`,
`get_filtered_top_techniques`, `get_filtered_source_distribution`) pass
`days` straight into `timedelta` (utils.py:422-424, 454-456, 495-497),
which raises `TypeError` for EVERY string other than `'all'` — numeric
strings included.  So the whole call raises instead of skipping the
filter. -/
theorem C3_string_time_range_raises (cutoffOf : Int → String) (sevf : String)
    (sourcesOpt : Option (List String)) (db : List Indicator) (s : String) :
    ∃ msg, getFilteredDashboardStats cutoffOf (TimeVal.tstr s) sevf sourcesOpt db =
      .error msg :=
  ⟨_, rfl⟩

/-! ## Claim C8 — simulated geographic spread -/

theorem mem_assocSet {κ β : Type} [BEq κ] (gd : List (κ × β)) (k : κ) (v : β) :
    ∀ e ∈ assocSet gd k v, e = (k, v) ∨ e ∈ gd := by
  induction gd with
  | nil =>
    intro e he
    simp only [assocSet, List.mem_singleton] at he
    exact Or.inl he
  | cons b rest ih =>
    intro e he
    obtain ⟨k0, v0⟩ := b
    simp only [assocSet] at he
    by_cases hk : (k0 == k) = true
    · rw [if_pos hk] at he
      rcases List.mem_cons.1 he with he | he
      · exact Or.inl he
      · exact Or.inr (List.mem_cons_of_mem _ he)
    · rw [if_neg hk] at he
      rcases List.mem_cons.1 he with he | he
      · exact Or.inr (he ▸ List.mem_cons_self _ _)
      · rcases ih e he with he | he
        · exact Or.inl he
        · exact Or.inr (List.mem_cons_of_mem _ he)

theorem self_mem_assocSet {κ β : Type} [BEq κ] (gd : List (κ × β)) (k : κ) (v : β) :
    (k, v) ∈ assocSet gd k v := by
  induction gd with
  | nil => exact List.mem_singleton.2 rfl
  | cons b rest ih =>
    obtain ⟨k0, v0⟩ := b
    simp only [assocSet]
    by_cases hk : (k0 == k) = true
    · rw [if_pos hk]
      exact List.mem_cons_self _ _
    · rw [if_neg hk]
      exact List.mem_cons_of_mem _ ih

theorem mem_assocSet_of_ne {κ β : Type} [BEq κ] [LawfulBEq κ]
    (gd : List (κ × β)) (k : κ) (v : β) (e : κ × β)
    (he : e ∈ gd) (hne : ¬ e.1 = k) : e ∈ assocSet gd k v := by
  induction gd with
  | nil => exact absurd he (List.not_mem_nil e)
  | cons b rest ih =>
    obtain ⟨k0, v0⟩ := b
    simp only [assocSet]
    by_cases hk : (k0 == k) = true
    · rw [if_pos hk]
      rcases List.mem_cons.1 he with he | he
      · exfalso
        apply hne
        rw [he]
        exact eq_of_beq hk
      · exact List.mem_cons_of_mem _ he
    · rw [if_neg hk]
      rcases List.mem_cons.1 he with he | he
      · exact he ▸ List.mem_cons_self _ _
      · exact List.mem_cons_of_mem _ (ih he)

theorem lookup_mem {κ β : Type} [BEq κ] [LawfulBEq κ]
    (gd : List (κ × β)) (k : κ) (r : β) (h : gd.lookup k = some r) :
    (k, r) ∈ gd := by
  induction gd with
  | nil => simp [List.lookup] at h
  | cons b rest ih =>
    obtain ⟨k0, v0⟩ := b
    simp only [List.lookup] at h
    split at h
    · rename_i heq
      have hv : v0 = r := by injection h
      rw [← hv, eq_of_beq heq]
      exact List.mem_cons_self _ _
    · exact List.mem_cons_of_mem _ (ih h)

/-- The URL pass only ever touches `malicious_urls` and `total`: every
bucket it produces has zero CVE and MITRE allocations. -/
theorem urlStep_fields (gd : List (String × GeoRow)) (i : Indicator)
    (h : ∀ e ∈ gd, e.2.cve_vulnerabilities = 0 ∧ e.2.mitre_techniques = 0) :
    ∀ e ∈ urlStep gd i, e.2.cve_vulnerabilities = 0 ∧ e.2.mitre_techniques = 0 := by
  intro e he
  unfold urlStep at he
  match hiv : i.indicator_value with
  | none =>
    rw [hiv] at he
    exact h e he
  | some v =>
    rw [hiv] at he
    dsimp only at he
    by_cases hv : (v == "") = true
    · rw [if_pos hv] at he
      exact h e he
    · rw [if_neg hv] at he
      match hdc : detectCountry (lowerStr v) with
      | none =>
        rw [hdc] at he
        dsimp only at he
        exact h e he
      | some c =>
        rw [hdc] at he
        dsimp only at he
        have h1 : ∀ e ∈ (if (List.lookup c gd).isSome = true then gd
            else gd ++ [(c, zeroGeoRow)]),
            e.2.cve_vulnerabilities = 0 ∧ e.2.mitre_techniques = 0 := by
          intro e' he'
          split at he'
          · exact h e' he'
          · rcases List.mem_append.1 he' with he' | he'
            · exact h e' he'
            · rw [List.mem_singleton.1 he']
              exact ⟨rfl, rfl⟩
        set gd1 := if (List.lookup c gd).isSome = true then gd
          else gd ++ [(c, zeroGeoRow)] with hgd1
        match hlook : gd1.lookup c with
        | none =>
          rw [hlook] at he
          exact h1 e he
        | some r =>
          rw [hlook] at he
          rcases mem_assocSet gd1 c _ e he with he | he
          · have hr := h1 (c, r) (lookup_mem gd1 c r hlook)
            rw [he]
            exact hr
          · exact h1 e he

theorem urlFold_fields (l : List Indicator) (gd : List (String × GeoRow))
    (h : ∀ e ∈ gd, e.2.cve_vulnerabilities = 0 ∧ e.2.mitre_techniques = 0) :
    ∀ e ∈ l.foldl urlStep gd, e.2.cve_vulnerabilities = 0 ∧ e.2.mitre_techniques = 0 := by
  induction l generalizing gd with
  | nil => exact h
  | cons i rest ih => exact ih (urlStep gd i) (urlStep_fields gd i h)

/-- Every entry of a `mergeStep` result either carries the merged
country name or comes from the input dict unchanged. -/
theorem mem_mergeStep (cve mitre : Nat) (gd : List (String × GeoRow))
    (nd : String × Nat) (e : String × GeoRow)
    (he : e ∈ mergeStep cve mitre gd nd) : e.1 = nd.1 ∨ e ∈ gd := by
  unfold mergeStep at he
  dsimp only at he
  match hlook : gd.lookup nd.1 with
  | some r =>
    rw [hlook] at he
    rcases mem_assocSet gd nd.1 _ e he with he | he
    · rw [he]
      exact Or.inl rfl
    · exact Or.inr he
  | none =>
    rw [hlook] at he
    rcases List.mem_append.1 he with he | he
    · exact Or.inr he
    · rw [List.mem_singleton.1 he]
      exact Or.inl rfl

theorem mem_mergeStep_of_ne (cve mitre : Nat) (gd : List (String × GeoRow))
    (nd : String × Nat) (e : String × GeoRow)
    (he : e ∈ gd) (hne : ¬ e.1 = nd.1) : e ∈ mergeStep cve mitre gd nd := by
  unfold mergeStep
  dsimp only
  match hlook : gd.lookup nd.1 with
  | some r =>
    exact mem_assocSet_of_ne gd nd.1 _ e he hne
  | none =>
    exact List.mem_append_left _ he

theorem mergeFold_preserves (cve mitre : Nat) (sim : List (String × Nat)) :
    ∀ (gd : List (String × GeoRow)) (e : String × GeoRow),
    e ∈ gd → e.1 ∉ sim.map (fun x => x.1) →
    e ∈ sim.foldl (mergeStep cve mitre) gd := by
  induction sim with
  | nil => exact fun gd e he _ => he
  | cons hd tl ih =>
    intro gd e he hn
    simp only [List.map_cons, List.mem_cons, not_or] at hn
    exact ih (mergeStep cve mitre gd hd) e
      (mem_mergeStep_of_ne cve mitre gd hd e he hn.1) hn.2

/-- The merge loop gives every simulated country exactly its
`max(1, count // divisor)` allocations on top of a URL-pass bucket (which
carries no CVE/MITRE allocations), hence a total of at least 2. -/
theorem mergeFold_spec (cve mitre : Nat) (sim : List (String × Nat)) :
    ∀ (gd : List (String × GeoRow)),
    (sim.map (fun x => x.1)).Nodup →
    (∀ e ∈ gd, e.1 ∈ sim.map (fun x => x.1) →
      e.2.cve_vulnerabilities = 0 ∧ e.2.mitre_techniques = 0) →
    ∀ nd ∈ sim, ∃ r : GeoRow,
      (nd.1, r) ∈ sim.foldl (mergeStep cve mitre) gd ∧
      r.cve_vulnerabilities = max 1 (cve / nd.2) ∧
      r.mitre_techniques = max 1 (mitre / nd.2) ∧
      2 ≤ r.total := by
  induction sim with
  | nil => exact fun gd _ _ nd hnd => absurd hnd (List.not_mem_nil nd)
  | cons hd tl ih =>
    intro gd hnodup hgd nd hnd
    simp only [List.map_cons, List.nodup_cons] at hnodup
    have hfold : (hd :: tl).foldl (mergeStep cve mitre) gd =
        tl.foldl (mergeStep cve mitre) (mergeStep cve mitre gd hd) := rfl
    rcases List.mem_cons.1 hnd with hnd | hnd
    · subst hnd
      have hstep : ∃ r : GeoRow, (nd.1, r) ∈ mergeStep cve mitre gd nd ∧
          r.cve_vulnerabilities = max 1 (cve / nd.2) ∧
          r.mitre_techniques = max 1 (mitre / nd.2) ∧
          2 ≤ r.total := by
        unfold mergeStep
        dsimp only
        match hlook : gd.lookup nd.1 with
        | some r0 =>
          have hp : r0.cve_vulnerabilities = 0 ∧ r0.mitre_techniques = 0 :=
            hgd (nd.1, r0) (lookup_mem gd nd.1 r0 hlook) (by simp)
          refine ⟨_, self_mem_assocSet gd nd.1 _, ?_, ?_, ?_⟩
          · simp [hp.1]
          · simp [hp.2]
          · have h1 : 1 ≤ max 1 (cve / nd.2) := Nat.le_max_left _ _
            have h2 : 1 ≤ max 1 (mitre / nd.2) := Nat.le_max_left _ _
            dsimp only
            omega
        | none =>
          refine ⟨_, List.mem_append_right _ (List.mem_singleton.2 rfl), rfl, rfl, ?_⟩
          have h1 : 1 ≤ max 1 (cve / nd.2) := Nat.le_max_left _ _
          have h2 : 1 ≤ max 1 (mitre / nd.2) := Nat.le_max_left _ _
          dsimp only
          omega
      obtain ⟨r, hr, h1, h2, h3⟩ := hstep
      refine ⟨r, ?_, h1, h2, h3⟩
      rw [hfold]
      exact mergeFold_preserves cve mitre tl _ (nd.1, r) hr hnodup.1
    · rw [hfold]
      apply ih (mergeStep cve mitre gd hd) hnodup.2 ?_ nd hnd
      intro e he hemem
      rcases mem_mergeStep cve mitre gd hd e he with heq | he
      · exfalso
        rw [heq] at hemem
        exact hnodup.1 hemem
      · exact hgd e he (List.mem_cons_of_mem _ hemem)

/-- **C8** (confirmed).  For every input, each of the 10 simulated
countries appears in the output with exactly
`max(1, cve_count // divisor)` vulnerability and
`max(1, mitre_count // divisor)` technique allocations for its fixed
divisor (hence per-country total ≥ 2 even on an empty match set), and
the returned lists are the per-country data sorted descending by
total. -/
theorem C8_geographic_simulated_spread (cutoffOf : Int → String) (tr : TimeVal)
    (sevf : String) (sourcesOpt : Option (List String)) (db : List Indicator) :
    (getGeographicAnalysis cutoffOf tr sevf sourcesOpt db).countries =
      (geoItems cutoffOf tr sevf (sourcesOpt.getD defaultSources) db).map
        (fun e => e.1) ∧
    (getGeographicAnalysis cutoffOf tr sevf sourcesOpt db).totals =
      (geoItems cutoffOf tr sevf (sourcesOpt.getD defaultSources) db).map
        (fun e => e.2.total) ∧
    (∀ nd ∈ simulatedDivisors, ∃ r : GeoRow,
      (nd.1, r) ∈ geoItems cutoffOf tr sevf (sourcesOpt.getD defaultSources) db ∧
      r.cve_vulnerabilities =
        max 1 (geoCveCount cutoffOf tr sevf (sourcesOpt.getD defaultSources) db / nd.2) ∧
      r.mitre_techniques =
        max 1 (geoMitreCount cutoffOf tr sevf (sourcesOpt.getD defaultSources) db / nd.2) ∧
      2 ≤ r.total ∧
      nd.1 ∈ (getGeographicAnalysis cutoffOf tr sevf sourcesOpt db).countries) ∧
    (geoItems cutoffOf tr sevf (sourcesOpt.getD defaultSources) db).Pairwise
      (fun a b => b.2.total ≤ a.2.total) := by
  refine ⟨rfl, rfl, ?_, ?_⟩
  · intro nd hnd
    have hnodup : (simulatedDivisors.map (fun x => x.1)).Nodup := by decide
    have hurl := urlFold_fields
      (((geoFiltered cutoffOf tr sevf (sourcesOpt.getD defaultSources) db).filter
        (fun i => i.indicator_type == some "Malicious URL"))) []
      (fun e he => absurd he (List.not_mem_nil e))
    obtain ⟨r, hr, h1, h2, h3⟩ :=
      mergeFold_spec
        (geoCveCount cutoffOf tr sevf (sourcesOpt.getD defaultSources) db)
        (geoMitreCount cutoffOf tr sevf (sourcesOpt.getD defaultSources) db)
        simulatedDivisors _ hnodup (fun e he _ => hurl e he) nd hnd
    have hrmem : (nd.1, r) ∈ geoItems cutoffOf tr sevf
        (sourcesOpt.getD defaultSources) db :=
      ((perm_sortS _ _).mem_iff).2 hr
    refine ⟨r, hrmem, h1, h2, h3, ?_⟩
    exact List.mem_map_of_mem (fun e => e.1) hrmem
  · apply pairwise_sortS
    · intro a b hk
      have : b.2.total < a.2.total := of_decide_eq_true hk
      omega
    · intro a b hk
      have : ¬ (b.2.total < a.2.total) := of_decide_eq_false hk
      omega
    · intro a b c hab hbc
      omega

/-- Witness for `C8_geographic_simulated_spread`: the United States entry
on an empty table. -/
theorem C8_witness :
    ∃ r : GeoRow,
      ("United States", r) ∈ geoItems (fun _ => "") TimeVal.tall "all"
        ((none : Option (List String)).getD defaultSources) [] ∧
      r.cve_vulnerabilities =
        max 1 (geoCveCount (fun _ => "") TimeVal.tall "all"
          ((none : Option (List String)).getD defaultSources) [] / 2) ∧
      r.mitre_techniques =
        max 1 (geoMitreCount (fun _ => "") TimeVal.tall "all"
          ((none : Option (List String)).getD defaultSources) [] / 2) ∧
      2 ≤ r.total ∧
      "United States" ∈
        (getGeographicAnalysis (fun _ => "") TimeVal.tall "all" none []).countries :=
  (C8_geographic_simulated_spread (fun _ => "") TimeVal.tall "all" none []).2.2.1
    ("United States", 2) (by decide)

/-! ## Claim C10 — temporal analysis invariants -/

/-- The filtered `(day, source)` rows feeding `get_temporal_analysis`. -/
def temporalRows (cutoff : String) (source : Option String)
    (db : List Indicator) : List (String × Option String) :=
  (db.filter (fun i =>
    optStrGe i.date_added cutoff && temporalSourceFilter source i)).map
    (fun i => (dayKey i, i.source))

/-- The per-day dict after the organising loop (utils.py:573-584). -/
def temporalDict (cutoff : String) (source : Option String)
    (db : List Indicator) : List (String × List (Option String × Nat)) :=
  (groupCount (temporalRows cutoff source db)).foldl tdStep []

/-- A chart value: day `d`, series key `k`. -/
def temporalVal (cutoff : String) (source : Option String)
    (db : List Indicator) (d : String) (k : Option String) : Nat :=
  assocGetD (assocGetD (temporalDict cutoff source db) d []) k 0

theorem lookup_assocSet_self {κ β : Type} [BEq κ] [LawfulBEq κ]
    (l : List (κ × β)) (k : κ) (v : β) :
    (assocSet l k v).lookup k = some v := by
  induction l with
  | nil => simp [assocSet, List.lookup]
  | cons b rest ih =>
    obtain ⟨k0, v0⟩ := b
    simp only [assocSet]
    by_cases hk : (k0 == k) = true
    · rw [if_pos hk]
      simp [List.lookup]
    · rw [if_neg hk]
      have hk2 : (k == k0) = false := by
        rw [beq_eq_false_iff_ne]
        intro h
        rw [h] at hk
        simp at hk
      simp [List.lookup, hk2, ih]

theorem lookup_assocSet_ne {κ β : Type} [BEq κ] [LawfulBEq κ]
    (l : List (κ × β)) (k : κ) (v : β) (k2 : κ) (h : ¬ k2 = k) :
    (assocSet l k v).lookup k2 = l.lookup k2 := by
  induction l with
  | nil =>
    simp only [assocSet, List.lookup]
    rw [beq_eq_false_iff_ne.2 h]
  | cons b rest ih =>
    obtain ⟨k0, v0⟩ := b
    simp only [assocSet]
    by_cases hk : (k0 == k) = true
    · rw [if_pos hk]
      have hk0 : k0 = k := eq_of_beq hk
      simp only [List.lookup]
      rw [beq_eq_false_iff_ne.2 h, beq_eq_false_iff_ne.2 (hk0 ▸ h)]
    · rw [if_neg hk]
      simp only [List.lookup]
      by_cases hk2 : (k2 == k0) = true
      · rw [hk2]
      · rw [eq_false_of_ne_true hk2, ih]

theorem lookup_append {κ β : Type} [BEq κ] (l1 l2 : List (κ × β)) (k : κ) :
    (l1 ++ l2).lookup k =
      match l1.lookup k with
      | some v => some v
      | none => l2.lookup k := by
  induction l1 with
  | nil => simp [List.lookup]
  | cons b rest ih =>
    obtain ⟨k0, v0⟩ := b
    simp only [List.cons_append, List.lookup]
    by_cases hk : (k == k0) = true
    · rw [hk]
    · rw [eq_false_of_ne_true hk]
      dsimp only
      exact ih

/-- Reading a value set by `assocSet`. -/
theorem assocGetD_assocSet_self {κ β : Type} [BEq κ] [LawfulBEq κ]
    (l : List (κ × β)) (k : κ) (v dflt : β) :
    assocGetD (assocSet l k v) k dflt = v := by
  unfold assocGetD
  rw [lookup_assocSet_self]

/-- Reading another key after `assocSet`. -/
theorem assocGetD_assocSet_ne {κ β : Type} [BEq κ] [LawfulBEq κ]
    (l : List (κ × β)) (k : κ) (v dflt : β) (k2 : κ) (h : ¬ k2 = k) :
    assocGetD (assocSet l k v) k2 dflt = assocGetD l k2 dflt := by
  unfold assocGetD
  rw [lookup_assocSet_ne l k v k2 h]

/-- `updDayRow` adds its count to the `'total'` key when the source is
not literally `'total'`. -/
theorem updDayRow_total (row : List (Option String × Nat))
    (src : Option String) (c : Nat) (h : ¬ src = some "total") :
    assocGetD (updDayRow row src c) (some "total") 0 =
      assocGetD row (some "total") 0 + c := by
  unfold updDayRow
  rw [assocGetD_assocSet_self,
    assocGetD_assocSet_ne row src c 0 (some "total") (fun he => h he.symm)]

/-- `updDayRow` sets the written source key. -/
theorem updDayRow_val_self (row : List (Option String × Nat))
    (src : Option String) (c : Nat) (h : ¬ src = some "total") :
    assocGetD (updDayRow row src c) src 0 = c := by
  unfold updDayRow
  rw [assocGetD_assocSet_ne _ _ _ _ _ h, assocGetD_assocSet_self]

/-- `updDayRow` leaves every other non-`'total'` key unchanged. -/
theorem updDayRow_val_ne (row : List (Option String × Nat))
    (src : Option String) (c : Nat) (k : Option String)
    (hk : ¬ k = some "total") (hks : ¬ k = src) :
    assocGetD (updDayRow row src c) k 0 = assocGetD row k 0 := by
  unfold updDayRow
  rw [assocGetD_assocSet_ne _ _ _ _ _ hk, assocGetD_assocSet_ne _ _ _ _ _ hks]

/-- One `updDayRow` application for a grouped row. -/
def updRow (r : List (Option String × Nat)) (g : (String × Option String) × Nat) :
    List (Option String × Nat) :=
  updDayRow r g.1.2 g.2

theorem lookup_tdStep_self (td : List (String × List (Option String × Nat)))
    (g : (String × Option String) × Nat) :
    (tdStep td g).lookup g.1.1 =
      some (updRow (assocGetD td g.1.1 initDayRow) g) := by
  unfold tdStep
  match hlook : td.lookup g.1.1 with
  | none =>
    rw [lookup_append]
    rw [hlook]
    simp only [List.lookup, beq_self_eq_true]
    unfold updRow assocGetD
    rw [hlook]
  | some row =>
    rw [lookup_assocSet_self]
    unfold updRow assocGetD
    rw [hlook]

theorem lookup_tdStep_ne (td : List (String × List (Option String × Nat)))
    (g : (String × Option String) × Nat) (d : String) (h : ¬ d = g.1.1) :
    (tdStep td g).lookup d = td.lookup d := by
  unfold tdStep
  match hlook : td.lookup g.1.1 with
  | none =>
    rw [lookup_append]
    match hd : td.lookup d with
    | some r => rfl
    | none =>
      simp only [List.lookup]
      rw [beq_eq_false_iff_ne.2 h]
  | some row =>
    exact lookup_assocSet_ne td g.1.1 _ d h

/-- The per-day accumulation that the flat loop performs for one fixed
date, as an `Option`-valued fold (`none` = the date was never seen). -/
def dayFold (start : Option (List (Option String × Nat))) :
    List ((String × Option String) × Nat) → Option (List (Option String × Nat))
  | [] => start
  | g :: gs => dayFold (some (updRow (start.getD initDayRow) g)) gs

theorem dayFold_some (row : List (Option String × Nat)) :
    ∀ gs : List ((String × Option String) × Nat),
    dayFold (some row) gs = some (gs.foldl updRow row) := by
  intro gs
  induction gs generalizing row with
  | nil => rfl
  | cons g gs ih => exact ih (updRow row g)

/-- The flat organising loop decomposes per date: the dict entry of `d`
after folding all grouped rows is the `dayFold` of just the rows of
day `d`, in order. -/
theorem tdFold_lookup (gs : List ((String × Option String) × Nat)) :
    ∀ (td : List (String × List (Option String × Nat))) (d : String),
    (gs.foldl tdStep td).lookup d =
      dayFold (td.lookup d) (gs.filter (fun g => g.1.1 == d)) := by
  induction gs with
  | nil => intro td d; rfl
  | cons g gs ih =>
    intro td d
    have hstep : (g :: gs).foldl tdStep td = gs.foldl tdStep (tdStep td g) := rfl
    rw [hstep, ih]
    by_cases hd : (g.1.1 == d) = true
    · have hd2 : d = g.1.1 := (eq_of_beq hd).symm
      simp only [List.filter_cons, hd, if_true]
      rw [hd2, lookup_tdStep_self]
      rfl
    · simp only [List.filter_cons, hd, Bool.false_eq_true, if_false]
      rw [lookup_tdStep_ne]
      intro he
      rw [he] at hd
      simp at hd

/-- Accumulated `'total'` over a day's grouped rows (none of which has the
literal source `'total'`). -/
theorem dayRowFold_total (gs : List ((String × Option String) × Nat)) :
    ∀ (row : List (Option String × Nat)),
    (∀ g ∈ gs, ¬ g.1.2 = some "total") →
    assocGetD (gs.foldl updRow row) (some "total") 0 =
      assocGetD row (some "total") 0 + (gs.map (fun g => g.2)).sum := by
  induction gs with
  | nil => intro row _; simp
  | cons g gs ih =>
    intro row hnt
    have h1 : ¬ g.1.2 = some "total" := hnt g (List.mem_cons_self _ _)
    have hstep : (g :: gs).foldl updRow row = gs.foldl updRow (updRow row g) := rfl
    rw [hstep, ih (updRow row g) (fun g' hg' => hnt g' (List.mem_cons_of_mem _ hg'))]
    unfold updRow
    rw [updDayRow_total row g.1.2 g.2 h1]
    simp only [List.map_cons, List.sum_cons]
    omega

/-- The value of a non-`'total'` series key after a day's grouped rows:
the sum of the counts of the matching groups, or the starting value when
the key never occurs.  Requires the day's sources to be distinct (true
after GROUP BY). -/
theorem dayRowFold_val (k : Option String) (hk : ¬ k = some "total")
    (gs : List ((String × Option String) × Nat)) :
    ∀ (row : List (Option String × Nat)),
    (∀ g ∈ gs, ¬ g.1.2 = some "total") →
    (gs.map (fun g => g.1.2)).Nodup →
    assocGetD (gs.foldl updRow row) k 0 =
      ((gs.filter (fun g => g.1.2 == k)).map (fun g => g.2)).sum +
        (if k ∈ gs.map (fun g => g.1.2) then 0 else assocGetD row k 0) := by
  induction gs with
  | nil => intro row _ _; simp
  | cons g gs ih =>
    intro row hnt hnodup
    simp only [List.map_cons, List.nodup_cons] at hnodup
    have h1 : ¬ g.1.2 = some "total" := hnt g (List.mem_cons_self _ _)
    have hstep : (g :: gs).foldl updRow row = gs.foldl updRow (updRow row g) := rfl
    rw [hstep, ih (updRow row g) (fun g' hg' => hnt g' (List.mem_cons_of_mem _ hg'))
      hnodup.2]
    by_cases hgk : g.1.2 = k
    · have hkn : k ∉ gs.map (fun g => g.1.2) := hgk ▸ hnodup.1
      have hfil : gs.filter (fun g => g.1.2 == k) = [] := by
        rw [List.filter_eq_nil_iff]
        intro g' hg' hbeq
        exact hkn ((eq_of_beq hbeq) ▸ List.mem_map_of_mem (fun g => g.1.2) hg')
      have hupd : assocGetD (updRow row g) k 0 = g.2 := by
        unfold updRow
        rw [← hgk]
        exact updDayRow_val_self row g.1.2 g.2 h1
      rw [if_neg hkn, hupd, List.map_cons,
        if_pos (List.mem_cons.2 (Or.inl hgk.symm)), List.filter_cons,
        if_pos (by rw [hgk]; exact beq_self_eq_true k), hfil]
      simp
    · have hbeq : (g.1.2 == k) = false := beq_eq_false_iff_ne.2 hgk
      have hupdne : assocGetD (updRow row g) k 0 = assocGetD row k 0 := by
        unfold updRow
        exact updDayRow_val_ne row g.1.2 g.2 k hk (fun he => hgk he.symm)
      rw [List.filter_cons, if_neg (c := (g.1.2 == k) = true) (by simp [hbeq]),
        List.map_cons]
      by_cases hmem : k ∈ gs.map (fun g => g.1.2)
      · rw [if_pos hmem, if_pos (List.mem_cons.2 (Or.inr hmem))]
      · rw [if_neg hmem, hupdne, if_neg ?hni]
        case hni =>
          intro hc
          rcases List.mem_cons.1 hc with hc | hc
          · exact hgk hc.symm
          · exact hmem hc

theorem lookup_isSome_of_mem_keys {κ β : Type} [BEq κ] [LawfulBEq κ]
    (l : List (κ × β)) (k : κ) (h : k ∈ l.map (fun e => e.1)) :
    ∃ r, l.lookup k = some r := by
  induction l with
  | nil => simp at h
  | cons b rest ih =>
    obtain ⟨k0, v0⟩ := b
    simp only [List.map_cons, List.mem_cons] at h
    by_cases hk : k = k0
    · refine ⟨v0, ?_⟩
      simp [List.lookup, hk]
    · rcases h with h | h
      · exact absurd h hk
      · obtain ⟨r, hr⟩ := ih h
        refine ⟨r, ?_⟩
        simp [List.lookup, beq_eq_false_iff_ne.2 hk, hr]

/-- The three named series take at most the whole day total, with
equality exactly when every group's source is one of the three names
(all group counts are positive). -/
theorem sum_three_filter (l : List ((String × Option String) × Nat))
    (hpos : ∀ g ∈ l, 1 ≤ g.2) :
    ((l.filter (fun g => g.1.2 == some "MITRE ATT&CK")).map (fun g => g.2)).sum +
    ((l.filter (fun g => g.1.2 == some "CISA KEV")).map (fun g => g.2)).sum +
    ((l.filter (fun g => g.1.2 == some "Abuse.ch URLhaus")).map (fun g => g.2)).sum ≤
      (l.map (fun g => g.2)).sum ∧
    (((l.filter (fun g => g.1.2 == some "MITRE ATT&CK")).map (fun g => g.2)).sum +
     ((l.filter (fun g => g.1.2 == some "CISA KEV")).map (fun g => g.2)).sum +
     ((l.filter (fun g => g.1.2 == some "Abuse.ch URLhaus")).map (fun g => g.2)).sum =
       (l.map (fun g => g.2)).sum ↔
     ∀ g ∈ l, g.1.2 = some "MITRE ATT&CK" ∨ g.1.2 = some "CISA KEV" ∨
       g.1.2 = some "Abuse.ch URLhaus") := by
  induction l with
  | nil => simp
  | cons g l ih =>
    have hg1 := hpos g (List.mem_cons_self _ _)
    obtain ⟨ihle, ihiff⟩ := ih (fun g' hg' => hpos g' (List.mem_cons_of_mem _ hg'))
    by_cases hm : g.1.2 = some "MITRE ATT&CK"
    · have hbm : (g.1.2 == some "MITRE ATT&CK") = true := by rw [hm]; rfl
      have hbc : (g.1.2 == some "CISA KEV") = false := by rw [hm]; rfl
      have hbu : (g.1.2 == some "Abuse.ch URLhaus") = false := by rw [hm]; rfl
      simp only [List.filter_cons, hbm, hbc, hbu, if_true, Bool.false_eq_true,
        if_false, List.map_cons, List.sum_cons, List.mem_cons, forall_eq_or_imp]
      refine ⟨by omega, ?_, ?_⟩
      · intro he
        exact ⟨Or.inl hm, ihiff.1 (by omega)⟩
      · intro hall
        have := ihiff.2 hall.2
        omega
    · by_cases hc : g.1.2 = some "CISA KEV"
      · have hbm : (g.1.2 == some "MITRE ATT&CK") = false := by rw [hc]; rfl
        have hbc : (g.1.2 == some "CISA KEV") = true := by rw [hc]; rfl
        have hbu : (g.1.2 == some "Abuse.ch URLhaus") = false := by rw [hc]; rfl
        simp only [List.filter_cons, hbm, hbc, hbu, if_true, Bool.false_eq_true,
          if_false, List.map_cons, List.sum_cons, List.mem_cons, forall_eq_or_imp]
        refine ⟨by omega, ?_, ?_⟩
        · intro he
          exact ⟨Or.inr (Or.inl hc), ihiff.1 (by omega)⟩
        · intro hall
          have := ihiff.2 hall.2
          omega
      · by_cases hu : g.1.2 = some "Abuse.ch URLhaus"
        · have hbm : (g.1.2 == some "MITRE ATT&CK") = false := by rw [hu]; rfl
          have hbc : (g.1.2 == some "CISA KEV") = false := by rw [hu]; rfl
          have hbu : (g.1.2 == some "Abuse.ch URLhaus") = true := by rw [hu]; rfl
          simp only [List.filter_cons, hbm, hbc, hbu, if_true, Bool.false_eq_true,
            if_false, List.map_cons, List.sum_cons, List.mem_cons, forall_eq_or_imp]
          refine ⟨by omega, ?_, ?_⟩
          · intro he
            exact ⟨Or.inr (Or.inr hu), ihiff.1 (by omega)⟩
          · intro hall
            have := ihiff.2 hall.2
            omega
        · have hbm : (g.1.2 == some "MITRE ATT&CK") = false :=
            beq_eq_false_iff_ne.2 hm
          have hbc : (g.1.2 == some "CISA KEV") = false :=
            beq_eq_false_iff_ne.2 hc
          have hbu : (g.1.2 == some "Abuse.ch URLhaus") = false :=
            beq_eq_false_iff_ne.2 hu
          simp only [List.filter_cons, hbm, hbc, hbu, Bool.false_eq_true,
            if_false, List.map_cons, List.sum_cons, List.mem_cons,
            forall_eq_or_imp]
          refine ⟨by omega, ?_, ?_⟩
          · intro he
            omega
          · intro hall
            exact absurd hall.1 (by simp [hm, hc, hu])

theorem groupCount_key_mem {α : Type} [DecidableEq α] (l : List α)
    (g : α × Nat) (hg : g ∈ groupCount l) : g.1 ∈ l ∧ g.2 = l.count g.1 := by
  unfold groupCount at hg
  obtain ⟨a, ha, hga⟩ := List.mem_map.1 hg
  constructor
  · rw [← hga]
    exact List.mem_dedup.1 ha
  · rw [← hga]

theorem mem_groupCount_of_mem {α : Type} [DecidableEq α] (l : List α)
    (a : α) (ha : a ∈ l) : (a, l.count a) ∈ groupCount l :=
  List.mem_map_of_mem _ (List.mem_dedup.2 ha)

theorem count_pos_of_mem {α : Type} [DecidableEq α] (a : α) (l : List α)
    (h : a ∈ l) : 1 ≤ l.count a := by
  induction l with
  | nil => simp at h
  | cons b bs ih =>
    rw [List.count_cons]
    rcases List.mem_cons.1 h with h | h
    · rw [h, beq_self_eq_true]
      simp
    · have := ih h
      split <;> omega

theorem groupCount_keys {α : Type} [DecidableEq α] (l : List α) :
    (groupCount l).map (fun g => g.1) = l.dedup := by
  unfold groupCount
  rw [List.map_map]
  show List.map (fun a : α => a) l.dedup = l.dedup
  exact List.map_id' l.dedup

theorem groupCount_filter_sum {α : Type} [DecidableEq α] (l : List α)
    (q : α → Bool) :
    (((groupCount l).filter (fun g => q g.1)).map (fun g => g.2)).sum =
      l.countP q := by
  unfold groupCount
  rw [List.filter_map, List.map_map]
  show ((l.dedup.filter q).map (fun a => l.count a)).sum = l.countP q
  exact List.sum_map_count_dedup_filter_eq_countP q l

theorem dayFold_none_cons (g : (String × Option String) × Nat)
    (gs : List ((String × Option String) × Nat)) :
    dayFold none (g :: gs) = some ((g :: gs).foldl updRow initDayRow) := by
  show dayFold (some (updRow (Option.getD none initDayRow) g)) gs = _
  rw [dayFold_some]
  rfl

/-- All facts about one day of the temporal series, under the proviso
that no indicator IN THE WINDOW (i.e. no row surviving the cutoff and
source filters) has the literal source string `'total'`. -/
theorem temporal_day_facts (cutoff : String) (source : Option String)
    (db : List Indicator)
    (hnt : ∀ r ∈ temporalRows cutoff source db, ¬ r.2 = some "total")
    (d : String) (hd : d ∈ (getTemporalAnalysis cutoff source db).dates) :
    temporalVal cutoff source db d (some "total") =
      ((temporalRows cutoff source db).filter (fun r => r.1 == d)).length ∧
    temporalVal cutoff source db d (some "MITRE ATT&CK") +
      temporalVal cutoff source db d (some "CISA KEV") +
      temporalVal cutoff source db d (some "Abuse.ch URLhaus") ≤
      temporalVal cutoff source db d (some "total") ∧
    (temporalVal cutoff source db d (some "total") =
      temporalVal cutoff source db d (some "MITRE ATT&CK") +
      temporalVal cutoff source db d (some "CISA KEV") +
      temporalVal cutoff source db d (some "Abuse.ch URLhaus") ↔
      ∀ r ∈ temporalRows cutoff source db, r.1 = d →
        r.2 = some "MITRE ATT&CK" ∨ r.2 = some "CISA KEV" ∨
        r.2 = some "Abuse.ch URLhaus") := by
  have hgnt : ∀ g ∈ (groupCount (temporalRows cutoff source db)).filter
      (fun g => g.1.1 == d), ¬ g.1.2 = some "total" := by
    intro g hg
    exact hnt g.1 (groupCount_key_mem _ g (List.mem_filter.1 hg).1).1
  have hgpos : ∀ g ∈ (groupCount (temporalRows cutoff source db)).filter
      (fun g => g.1.1 == d), 1 ≤ g.2 := by
    intro g hg
    obtain ⟨hmem, hcnt⟩ := groupCount_key_mem _ g (List.mem_filter.1 hg).1
    rw [hcnt]
    exact count_pos_of_mem _ _ hmem
  have hgd : ∀ g ∈ (groupCount (temporalRows cutoff source db)).filter
      (fun g => g.1.1 == d), g.1.1 = d := by
    intro g hg
    exact eq_of_beq (List.mem_filter.1 hg).2
  -- the day's sources are pairwise distinct
  have hkeysnodup : (((groupCount (temporalRows cutoff source db)).filter
      (fun g => g.1.1 == d)).map (fun g => g.1)).Nodup := by
    have h1 : ((groupCount (temporalRows cutoff source db)).map
        (fun g => g.1)).Nodup := by
      rw [groupCount_keys]
      exact List.nodup_dedup _
    exact h1.sublist ((List.filter_sublist _).map _)
  have hsrcnodup : (((groupCount (temporalRows cutoff source db)).filter
      (fun g => g.1.1 == d)).map (fun g => g.1.2)).Nodup := by
    have heq : ((groupCount (temporalRows cutoff source db)).filter
        (fun g => g.1.1 == d)).map (fun g => g.1.2) =
        (((groupCount (temporalRows cutoff source db)).filter
          (fun g => g.1.1 == d)).map (fun g => g.1)).map (fun x => x.2) := by
      rw [List.map_map]
      rfl
    rw [heq]
    apply List.Nodup.map_on ?_ hkeysnodup
    intro x hx y hy hxy
    obtain ⟨gx, hgx, hgx2⟩ := List.mem_map.1 hx
    obtain ⟨gy, hgy, hgy2⟩ := List.mem_map.1 hy
    have hx1 : x.1 = d := by rw [← hgx2]; exact hgd gx hgx
    have hy1 : y.1 = d := by rw [← hgy2]; exact hgd gy hgy
    exact Prod.ext (hx1.trans hy1.symm) hxy
  -- the dict entry of day d
  have hdk : d ∈ (temporalDict cutoff source db).map (fun e => e.1) := by
    have hd2 : d ∈ sortS (fun y x : String => strLt y x)
        ((temporalDict cutoff source db).map (fun e => e.1)) := hd
    exact ((perm_sortS _ _).mem_iff).1 hd2
  obtain ⟨row, hrow⟩ := lookup_isSome_of_mem_keys _ d hdk
  have hdecomp : (temporalDict cutoff source db).lookup d =
      dayFold none ((groupCount (temporalRows cutoff source db)).filter
        (fun g => g.1.1 == d)) := by
    unfold temporalDict
    exact tdFold_lookup _ [] d
  have hrowval : row = ((groupCount (temporalRows cutoff source db)).filter
      (fun g => g.1.1 == d)).foldl updRow initDayRow := by
    rw [hrow] at hdecomp
    match hgd0 : (groupCount (temporalRows cutoff source db)).filter
        (fun g => g.1.1 == d) with
    | [] =>
      rw [hgd0] at hdecomp
      simp [dayFold] at hdecomp
    | g :: gs =>
      rw [hgd0, dayFold_none_cons] at hdecomp
      rw [hgd0]
      injection hdecomp
  have hval : ∀ k : Option String,
      temporalVal cutoff source db d k = assocGetD row k 0 := by
    intro k
    unfold temporalVal assocGetD
    rw [hrow]
  set gd := (groupCount (temporalRows cutoff source db)).filter
    (fun g => g.1.1 == d) with hgddef
  -- the total value is the day row count
  have hsumtot : temporalVal cutoff source db d (some "total") =
      (gd.map (fun g => g.2)).sum := by
    rw [hval, hrowval, dayRowFold_total gd initDayRow hgnt]
    have hz : assocGetD initDayRow (some "total") 0 = 0 := rfl
    rw [hz, Nat.zero_add]
  have hsumrows : (gd.map (fun g => g.2)).sum =
      ((temporalRows cutoff source db).filter (fun r => r.1 == d)).length := by
    rw [hgddef, ← List.countP_eq_length_filter]
    exact groupCount_filter_sum (temporalRows cutoff source db)
      (fun a => a.1 == d)
  have hinitv : ∀ n : String, ¬ (some n : Option String) = some "total" →
      assocGetD initDayRow (some n) 0 = 0 := by
    intro n hn
    unfold initDayRow assocGetD
    simp only [List.lookup]
    by_cases h1 : ((some n : Option String) == some "MITRE ATT&CK") = true
    · simp only [h1]
    · simp only [eq_false_of_ne_true h1]
      by_cases h2 : ((some n : Option String) == some "CISA KEV") = true
      · simp only [h2]
      · simp only [eq_false_of_ne_true h2]
        by_cases h3 : ((some n : Option String) == some "Abuse.ch URLhaus") = true
        · simp only [h3]
        · simp only [eq_false_of_ne_true h3]
          simp only [beq_eq_false_iff_ne.2 hn]
  have hnamed : ∀ n : String, ¬ (some n : Option String) = some "total" →
      temporalVal cutoff source db d (some n) =
        ((gd.filter (fun g => g.1.2 == some n)).map (fun g => g.2)).sum := by
    intro n hn
    rw [hval, hrowval, dayRowFold_val (some n) hn gd initDayRow hgnt hsrcnodup]
    rw [hinitv n hn, ite_self, Nat.add_zero]
  obtain ⟨hle, hiff⟩ := sum_three_filter gd hgpos
  have hm := hnamed "MITRE ATT&CK" (by simp)
  have hc := hnamed "CISA KEV" (by simp)
  have hu := hnamed "Abuse.ch URLhaus" (by simp)
  have hrowiff : (∀ g ∈ gd, g.1.2 = some "MITRE ATT&CK" ∨
      g.1.2 = some "CISA KEV" ∨ g.1.2 = some "Abuse.ch URLhaus") ↔
      (∀ r ∈ temporalRows cutoff source db, r.1 = d →
        r.2 = some "MITRE ATT&CK" ∨ r.2 = some "CISA KEV" ∨
        r.2 = some "Abuse.ch URLhaus") := by
    constructor
    · intro hg r hr hrd
      have hmem : (r, @List.count (String × Option String) instBEqOfDecidableEq r
          (temporalRows cutoff source db)) ∈ gd := by
        rw [hgddef]
        apply List.mem_filter.2
        refine ⟨mem_groupCount_of_mem _ r hr, ?_⟩
        simp [hrd]
      exact hg _ hmem
    · intro hr g hg
      have h1 := groupCount_key_mem _ g (List.mem_filter.1 (hgddef ▸ hg)).1
      exact hr g.1 h1.1 (hgd g hg)
  refine ⟨hsumtot.trans hsumrows, ?_, ?_⟩
  · rw [hm, hc, hu, hsumtot]
    exact hle
  · rw [hm, hc, hu, hsumtot]
    rw [eq_comm]
    exact hiff.trans hrowiff

/-- **C10** (corrected).  The five series are always aligned (each is a
map over the sorted day list) and `dates` is ascending; and PROVIDED no
indicator in the window (no row surviving the cutoff and source
filters) has the literal source string `'total'` (which would clobber
the reserved `'total'` dict key), each day's total equals the number of
matching rows of that day (the sum of all its per-source group counts),
dominates `mitre + cisa + urlhaus`, with equality exactly when every row
of the day has one of the three tracked source names. -/
theorem C10_temporal_series (cutoff : String) (source : Option String)
    (db : List Indicator) :
    (getTemporalAnalysis cutoff source db).mitre =
      (getTemporalAnalysis cutoff source db).dates.map
        (fun d => temporalVal cutoff source db d (some "MITRE ATT&CK")) ∧
    (getTemporalAnalysis cutoff source db).cisa =
      (getTemporalAnalysis cutoff source db).dates.map
        (fun d => temporalVal cutoff source db d (some "CISA KEV")) ∧
    (getTemporalAnalysis cutoff source db).urlhaus =
      (getTemporalAnalysis cutoff source db).dates.map
        (fun d => temporalVal cutoff source db d (some "Abuse.ch URLhaus")) ∧
    (getTemporalAnalysis cutoff source db).total =
      (getTemporalAnalysis cutoff source db).dates.map
        (fun d => temporalVal cutoff source db d (some "total")) ∧
    (getTemporalAnalysis cutoff source db).mitre.length =
      (getTemporalAnalysis cutoff source db).dates.length ∧
    (getTemporalAnalysis cutoff source db).cisa.length =
      (getTemporalAnalysis cutoff source db).dates.length ∧
    (getTemporalAnalysis cutoff source db).urlhaus.length =
      (getTemporalAnalysis cutoff source db).dates.length ∧
    (getTemporalAnalysis cutoff source db).total.length =
      (getTemporalAnalysis cutoff source db).dates.length ∧
    (getTemporalAnalysis cutoff source db).dates.Pairwise
      (fun a b => strLe a b = true) ∧
    ((∀ r ∈ temporalRows cutoff source db, ¬ r.2 = some "total") →
      ∀ d ∈ (getTemporalAnalysis cutoff source db).dates,
        temporalVal cutoff source db d (some "total") =
          ((temporalRows cutoff source db).filter (fun r => r.1 == d)).length ∧
        temporalVal cutoff source db d (some "MITRE ATT&CK") +
          temporalVal cutoff source db d (some "CISA KEV") +
          temporalVal cutoff source db d (some "Abuse.ch URLhaus") ≤
          temporalVal cutoff source db d (some "total") ∧
        (temporalVal cutoff source db d (some "total") =
          temporalVal cutoff source db d (some "MITRE ATT&CK") +
          temporalVal cutoff source db d (some "CISA KEV") +
          temporalVal cutoff source db d (some "Abuse.ch URLhaus") ↔
          ∀ r ∈ temporalRows cutoff source db, r.1 = d →
            r.2 = some "MITRE ATT&CK" ∨ r.2 = some "CISA KEV" ∨
            r.2 = some "Abuse.ch URLhaus")) := by
  refine ⟨rfl, rfl, rfl, rfl, List.length_map _ _, List.length_map _ _,
    List.length_map _ _, List.length_map _ _, ?_, ?_⟩
  · apply pairwise_sortS
    · intro a b h
      unfold strLe
      have hba : strLt b a = false := by
        unfold strLt at h ⊢
        exact decide_eq_false (lt_asymm (of_decide_eq_true h))
      rw [hba]
      rfl
    · intro a b h
      unfold strLe
      rw [h]
      rfl
    · intro a b c hab hbc
      unfold strLe strLt at hab hbc ⊢
      have h1 : ¬ (b.toList < a.toList) := by
        intro hc
        rw [decide_eq_true hc] at hab
        simp at hab
      have h2 : ¬ (c.toList < b.toList) := by
        intro hc
        rw [decide_eq_true hc] at hbc
        simp at hbc
      have h3 : ¬ (c.toList < a.toList) :=
        not_lt.2 (le_trans (le_of_not_lt h1) (le_of_not_lt h2))
      rw [decide_eq_false h3]
      rfl
  · intro hnt d hd
    exact temporal_day_facts cutoff source db hnt d hd

/-- A row whose source is the literal string `'total'`. -/
def sampleTotalSource : Indicator :=
  { id := 9, indicator_type := some "Malicious URL", source := some "total",
    date_added := some "2025-01-02", indicator_value := some "http://x.yz/a" }

/-- **C10** counterexample: a single row whose source is the string
`'total'` yields a day total of 2, although only 1 indicator (and a
source-count sum of 1) exists that day — `total[i]` is NOT the sum of
the day's per-source counts. -/
theorem C10_counterexample :
    (getTemporalAnalysis "2025-01-01" none [sampleTotalSource]).dates =
      ["2025-01-02"] ∧
    (getTemporalAnalysis "2025-01-01" none [sampleTotalSource]).total = [2] ∧
    ((temporalRows "2025-01-01" none [sampleTotalSource]).filter
      (fun r => r.1 == "2025-01-02")).length = 1 :=
  ⟨rfl, rfl, rfl⟩

/-- Witness for `C10_temporal_series` (the guarded clause) on a one-row
table with an ordinary source. -/
theorem C10_witness :
    temporalVal "2025-01-01" none [sampleTech] "2025-06-26" (some "total") =
      ((temporalRows "2025-01-01" none [sampleTech]).filter
        (fun r => r.1 == "2025-06-26")).length ∧
    temporalVal "2025-01-01" none [sampleTech] "2025-06-26" (some "MITRE ATT&CK") +
      temporalVal "2025-01-01" none [sampleTech] "2025-06-26" (some "CISA KEV") +
      temporalVal "2025-01-01" none [sampleTech] "2025-06-26" (some "Abuse.ch URLhaus") ≤
      temporalVal "2025-01-01" none [sampleTech] "2025-06-26" (some "total") ∧
    (temporalVal "2025-01-01" none [sampleTech] "2025-06-26" (some "total") =
      temporalVal "2025-01-01" none [sampleTech] "2025-06-26" (some "MITRE ATT&CK") +
      temporalVal "2025-01-01" none [sampleTech] "2025-06-26" (some "CISA KEV") +
      temporalVal "2025-01-01" none [sampleTech] "2025-06-26" (some "Abuse.ch URLhaus") ↔
      ∀ r ∈ temporalRows "2025-01-01" none [sampleTech], r.1 = "2025-06-26" →
        r.2 = some "MITRE ATT&CK" ∨ r.2 = some "CISA KEV" ∨
        r.2 = some "Abuse.ch URLhaus") :=
  (C10_temporal_series "2025-01-01" none [sampleTech]).2.2.2.2.2.2.2.2.2
    (by decide) "2025-06-26" (by decide)
